import Mathlib

/-!
# python-driver normalizer: the level converter and the annotation rule table

A shallow embedding of `driver/normalizer/annotation.go` and
`driver/normalizer/transforms.go`.

* `num2dots`, `opLevelDotsNumConv.Check`, `opLevelDotsNumConv.Construct` are
  translated line by line from `annotation.go`.
* The node model (`Value`, `Node`), the binding state (`State`) and the
  variable operator `Var` belong to the transformer library the file imports;
  they are modelled here as far as the translated code uses them.
* A Go call either returns or does not (a panic, or the runtime running out of
  memory); not returning is `none`. The number of bytes the allocator can serve
  is the parameter `heap` of the functions that allocate.
-/

namespace normalizer

/-! ## Node model (`uast.Value`, `uast.Node`) -/

/-- Primitive values of the tree: `uast.String`, `uast.Int` (an `int64`),
`uast.Float` (given by its IEEE-754 bit pattern) and `uast.Bool`. -/
inductive Value where
  | String (s : String)
  | Int (i : Int)
  | Float (bits : Nat)
  | Bool (b : Bool)
  deriving DecidableEq

/-- Tree nodes (`uast.Node`): the nil node, a primitive value, an array, or an
object. An object is a Go map; it is kept as a list of fields whose keys are
read through `List.lookup`. -/
inductive Node where
  | nil
  | value (v : Value)
  | Array (xs : List Node)
  | Object (fs : List (String × Node))

mutual
/-- Syntactic equality of nodes is decidable. -/
def Node.decEq : (a b : Node) → Decidable (a = b)
  | .nil, .nil => isTrue rfl
  | .value a, .value b =>
    if h : a = b then isTrue (by rw [h]) else isFalse (by intro e; cases e; exact h rfl)
  | .Array xs, .Array ys =>
    match Node.decEqList xs ys with
    | isTrue h => isTrue (by rw [h])
    | isFalse h => isFalse (by intro e; cases e; exact h rfl)
  | .Object fs, .Object gs =>
    match Node.decEqFields fs gs with
    | isTrue h => isTrue (by rw [h])
    | isFalse h => isFalse (by intro e; cases e; exact h rfl)
  | .nil, .value _ => isFalse (by intro e; cases e)
  | .nil, .Array _ => isFalse (by intro e; cases e)
  | .nil, .Object _ => isFalse (by intro e; cases e)
  | .value _, .nil => isFalse (by intro e; cases e)
  | .value _, .Array _ => isFalse (by intro e; cases e)
  | .value _, .Object _ => isFalse (by intro e; cases e)
  | .Array _, .nil => isFalse (by intro e; cases e)
  | .Array _, .value _ => isFalse (by intro e; cases e)
  | .Array _, .Object _ => isFalse (by intro e; cases e)
  | .Object _, .nil => isFalse (by intro e; cases e)
  | .Object _, .value _ => isFalse (by intro e; cases e)
  | .Object _, .Array _ => isFalse (by intro e; cases e)
/-- Syntactic equality of node lists is decidable. -/
def Node.decEqList : (a b : List Node) → Decidable (a = b)
  | [], [] => isTrue rfl
  | [], _ :: _ => isFalse (by intro e; cases e)
  | _ :: _, [] => isFalse (by intro e; cases e)
  | x :: xs, y :: ys =>
    match Node.decEq x y, Node.decEqList xs ys with
    | isTrue h, isTrue h2 => isTrue (by rw [h, h2])
    | isFalse h, _ => isFalse (by intro e; cases e; exact h rfl)
    | _, isFalse h => isFalse (by intro e; cases e; exact h rfl)
/-- Syntactic equality of field lists is decidable. -/
def Node.decEqFields : (a b : List (String × Node)) → Decidable (a = b)
  | [], [] => isTrue rfl
  | [], _ :: _ => isFalse (by intro e; cases e)
  | _ :: _, [] => isFalse (by intro e; cases e)
  | (k, x) :: xs, (l, y) :: ys =>
    if hk : k = l then
      match Node.decEq x y, Node.decEqFields xs ys with
      | isTrue h, isTrue h2 => isTrue (by rw [hk, h, h2])
      | isFalse h, _ => isFalse (by intro e; cases e; exact h rfl)
      | _, isFalse h => isFalse (by intro e; cases e; exact h rfl)
    else isFalse (by intro e; cases e; exact hk rfl)
end

instance : DecidableEq Node := Node.decEq

/-- A float bit pattern is a NaN: exponent all ones, mantissa not zero. -/
def floatIsNaN (bits : Nat) : Bool :=
  (bits / 2 ^ 52) % 2 ^ 11 == 2 ^ 11 - 1 && bits % 2 ^ 52 != 0

/-- Go `==` on two floats given by their bit patterns: a NaN equals nothing,
the two zeros are equal, otherwise the patterns must agree. -/
def floatEq (a b : Nat) : Bool :=
  !floatIsNaN a && !floatIsNaN b && (a == b || (a % 2 ^ 63 == 0 && b % 2 ^ 63 == 0))

/-- Go `==` on two primitive values of the same dynamic type. -/
def valueEqual : Value → Value → Bool
  | .String a, .String b => a == b
  | .Int a, .Int b => a == b
  | .Float a, .Float b => floatEq a b
  | .Bool a, .Bool b => a == b
  | _, _ => false

mutual
/-- Node equality `uast.Equal`: nil equals nil, values compare with `==`,
arrays element by element, objects field by field whatever the order. -/
def Node.Equal : Node → Node → Bool
  | .nil, .nil => true
  | .value a, .value b => valueEqual a b
  | .Array xs, .Array ys => Node.EqualList xs ys
  | .Object fs, .Object gs => fs.length == gs.length && Node.EqualFields fs gs
  | _, _ => false
/-- Element-wise equality of two arrays. -/
def Node.EqualList : List Node → List Node → Bool
  | [], [] => true
  | x :: xs, y :: ys => Node.Equal x y && Node.EqualList xs ys
  | _, _ => false
/-- Every field of the first object is present in the second with an equal
value. -/
def Node.EqualFields : List (String × Node) → List (String × Node) → Bool
  | [], _ => true
  | (k, x) :: xs, gs =>
    match gs.lookup k with
    | some y => Node.Equal x y && Node.EqualFields xs gs
    | none => false
end

/-! ## Errors and the binding state -/

/-- Error kinds of the transformer library that the translated code meets. -/
inductive Err where
  | ErrExpectedValue (n : Node)
  | ErrVariableRedeclared (name : String) (cur val : Node)
  | ErrVariableNotDefined (name : String)
  | ErrUnexpectedNode (n : Node)
  | other (msg : String)
  deriving DecidableEq

/-- Binding state `State`: the variables bound so far, in insertion order. -/
structure State where
  vars : List (String × Node)
  deriving DecidableEq

/-- Read a variable: `State.GetVar`. -/
def State.GetVar (st : State) (name : String) : Option Node :=
  st.vars.lookup name

/-- Bind a variable: `State.SetVar`. An unbound name is bound; a name bound to
an equal node is left alone; a name bound to a different node is an error and
the state is not touched. -/
def State.SetVar (st : State) (name : String) (val : Node) : Option Err × State :=
  match st.GetVar name with
  | none => (none, { vars := st.vars ++ [(name, val)] })
  | some cur =>
    if Node.Equal cur val then (none, st)
    else (some (.ErrVariableRedeclared name cur val), st)

/-- The two-method operator protocol `Op`. The state is passed in and the
state left behind is passed out; `none` is a panic. `Check` answers the Go pair
`(bool, error)`, `Construct` the pair `(uast.Node, error)`. -/
structure Op where
  Check : State → Node → Option ((Bool × Option Err) × State)
  Construct : State → Node → Option ((Node × Option Err) × State)

/-- Modelled from the spec: the variable operator `Var` of the transformer
library, whose code is not under src/. Matching captures the candidate under
the name (adding a binding to the context); constructing gives back the bound
sub-tree and fails when the binding is missing. The template node handed to
`Construct` must be nil. -/
def Var (name : String) : Op where
  Check := fun st n =>
    match st.SetVar name n with
    | (some e, st1) => some ((false, some e), st1)
    | (none, st1) => some ((true, none), st1)
  Construct := fun st n =>
    match n with
    | .nil =>
      match st.GetVar name with
      | some val => some ((val, none), st)
      | none => some ((.nil, some (.ErrVariableNotDefined name)), st)
    | _ => some ((.nil, some (.ErrUnexpectedNode n)), st)

/-! ## `num2dots` and `opLevelDotsNumConv` (annotation.go, lines 94-139) -/

/-- Conversion of an `int64` to Go `int`, 64 bits wide on the platforms the
driver is built for: two-complement wrap-around, the identity on every
`int64`. -/
def goInt (i : Int) : Int := (i + 2 ^ 63) % 2 ^ 64 - 2 ^ 63

/-- Largest length the Go runtime accepts for a byte slice on the 64-bit
platforms the driver is built for (`maxAlloc`, two to the 48): asking for more
panics with `makeslice: len out of range`. -/
def maxAlloc : Nat := 2 ^ 48

/-- Standard library `strings.Repeat`, run while the allocator can serve at
most `heap` bytes. It does not return (`none`) on a negative count, when the
length of the result overflows `int`, when that length is above `maxAlloc`
(`makeslice: len out of range`), or when it is more than the `heap` bytes that
can be served (out of memory); otherwise it returns `count` copies of `s`. -/
def stringsRepeat (heap : Nat) (s : String) (count : Int) : Option String :=
  if count < 0 ∨ 2 ^ 63 ≤ (s.utf8ByteSize : Int) * count ∨
      (maxAlloc : Int) < (s.utf8ByteSize : Int) * count ∨
      (heap : Int) < (s.utf8ByteSize : Int) * count then none
  else some (String.mk (List.replicate count.toNat s.data).flatten)

/-- Source function `num2dots`: an `Int` becomes the string of that many dots,
any other value is returned as it is. `heap` is the number of bytes the
allocator can serve when the function is called. -/
def num2dots (heap : Nat) (n : Value) : Option Value :=
  match n with
  | .Int intval =>
    let i64val := goInt intval
    (stringsRepeat heap "." (goInt i64val)).map Value.String
  | _ => some n

/-- Source type `opLevelDotsNumConv`: two inner operators. -/
structure opLevelDotsNumConv where
  op : Op
  orig : Op

/-- Source method `opLevelDotsNumConv.Check`, run while the allocator can serve
`heap` bytes. -/
def opLevelDotsNumConv.Check (op : opLevelDotsNumConv) (heap : Nat) (st : State) (n : Node) :
    Option ((Bool × Option Err) × State) :=
  match n with
  | .value v =>
    match num2dots heap v with
    | none => none
    | some nv =>
      match op.op.Check st (.value nv) with
      | none => none
      | some ((res1, err), st1) =>
        if err ≠ none ∨ res1 = false then some ((false, err), st1)
        else
          match op.orig.Check st1 (.value v) with
          | none => none
          | some ((res2, err2), st2) =>
            if err2 ≠ none ∨ res2 = false then some ((false, err2), st2)
            else some ((res1 && res2, none), st2)
  | _ => some ((false, none), st)

/-- Source method `opLevelDotsNumConv.Construct`. -/
def opLevelDotsNumConv.Construct (op : opLevelDotsNumConv) (st : State) (n : Node) :
    Option ((Node × Option Err) × State) :=
  match op.orig.Construct st n with
  | none => none
  | some ((n1, err), st1) =>
    if err ≠ none then some ((.nil, err), st1)
    else
      match n1 with
      | .value (.Int v) => some ((.value (.Int v), none), st1)
      | _ => some ((.nil, some (.ErrExpectedValue n1)), st1)

/-- The converter is itself an operator. -/
def opLevelDotsNumConv.toOp (op : opLevelDotsNumConv) (heap : Nat) : Op where
  Check := op.Check heap
  Construct := op.Construct

/-- The converter of the `ImportFrom` rule (annotation.go, line 455):
`opLevelDotsNumConv{op: Var("level"), orig: Var("origlevel")}`. -/
def levelConv : opLevelDotsNumConv where
  op := Var "level"
  orig := Var "origlevel"

/-- The state with no binding (`NewState()`). -/
def State.empty : State := { vars := [] }

/-! ## Patterns and the rule table (annotation.go, lines 26-91 and 141-594) -/

/-- Reserved field name of the type tag (`uast.KeyType`). -/
def KeyType : String := "@type"

/-- Reserved field name of the token (`uast.KeyToken`). -/
def KeyToken : String := "@token"

/-- Reserved field name of the role set (`uast.KeyRoles`). -/
def KeyRoles : String := "@role"

/-- A role (`role.Role`), written by its name: `role.Function` is `"Function"`. -/
abbrev Role := String

/-- Pattern and template elements as they are written in the rule table:
`Var(name)`, `String(s)`, `Roles(...)`, `Obj{...}`, the level converter
`opLevelDotsNumConv{op, orig}` and `ObjectRoles(vr, roles...)`. -/
inductive Pat where
  | Var (name : String)
  | String (s : String)
  | Roles (roles : List Role)
  | Obj (fields : List (String × Pat))
  | opLevelDotsNumConv (op orig : Pat)
  | ObjectRoles (vr : String) (roles : List Role)

/-- One entry of `FieldRoles`; a field left out of the Go literal has its zero
value. -/
structure FieldRole where
  Rename : String := ""
  Add : Bool := false
  Opt : Bool := false
  Arr : Bool := false
  Op : Option Pat := none
  Roles : List Role := []

/-- The field argument of `AnnotateType`: `nil`, a `FieldRoles` literal or an
`ObjRoles` literal. -/
inductive ObjAnnotator where
  | nil
  | FieldRoles (fields : List (String × FieldRole))
  | ObjRoles (fields : List (String × List Role))

/-- A rule of the table, by the library constructor that builds it. -/
inductive Mapping where
  | ObjectToNode (InternalTypeKey LineKey ColumnKey EndLineKey EndColumnKey : String)
  | AnnotateType (typ : String) (fields : ObjAnnotator) (roles : List Role)
  | MapAST (typ : String) (ast norm : List (String × Pat)) (roles : List Role)

open Mapping in
/-- Source function `annotateTypeToken`. -/
def annotateTypeToken (typ token : String) (roles : List Role) : Mapping :=
  AnnotateType typ
    (.FieldRoles [(KeyToken, { Add := true, Op := some (.String token) })]) roles

/-- Source variable `funcBodyRoles`. -/
def funcBodyRoles : Pat := .Roles ["Function", "Declaration", "Body"]

/-- Source variable `funcDecoRoles`. -/
def funcDecoRoles : Pat := .Roles ["Function", "Declaration", "Incomplete"]

open Mapping in
/-- Source function `functionAnnotate`. -/
def functionAnnotate (typ : String) (roles : List Role) : Mapping :=
  MapAST typ [
    ("decorator_list", .Var "decors"),
    ("body", .Var "body_stmts"),
    ("name", .Var "name")
  ] [
    ("decorator_list", .Obj [
      (KeyType, .String "FunctionDef.decorators"),
      (KeyRoles, funcDecoRoles),
      ("decorators", .Var "decors")
    ]),
    ("body", .Obj [
      (KeyType, .String "FunctionDef.body"),
      (KeyRoles, funcBodyRoles),
      ("body_stmts", .Var "body_stmts")
    ]),
    (KeyToken, .Var "name")
  ] roles

open Mapping in
/-- Source function `withAnnotate`; the roles argument of the source is not
used by its body. -/
def withAnnotate (typ : String) (_roles : List Role) : Mapping :=
  MapAST typ [
    ("body", .Var "body_stmts"),
    ("items", .Var "itms")
  ] [
    ("body", .Obj [
      (KeyType, .String "With.body"),
      (KeyRoles, .Roles ["Block", "Scope", "Body", "Incomplete"]),
      ("body_stmts", .Var "body_stmts")
    ]),
    ("items", .Obj [
      (KeyType, .String "With.items"),
      (KeyRoles, .Roles ["Block", "Scope", "Incomplete"]),
      ("items", .Var "itms")
    ])
  ] ["Block", "Scope", "Statement"]

open Mapping in
/-- Source function `loopAnnotate`. -/
def loopAnnotate (typ : String) (mainRole : Role) (roles : List Role) : Mapping :=
  MapAST typ [
    ("body", .Var "body_stmts"),
    ("orelse", .Var "else_stmts")
  ] [
    ("body", .Obj [
      (KeyType, .String "For.body"),
      (KeyRoles, .Roles [mainRole, "Body", "Then"]),
      ("body_stmts", .Var "body_stmts")
    ]),
    ("orelse", .Obj [
      (KeyType, .String "For.orelse"),
      (KeyRoles, .Roles [mainRole, "Body", "Else"]),
      ("else_stmts", .Var "else_stmts"),
      (KeyToken, .String "else")
    ])
  ] roles

/-- The `Try` rule of the table (annotation.go, lines 292-320). -/
def tryMapping : Mapping :=
  .MapAST "Try" [
    ("body", .Var "body_stmts"),
    ("finalbody", .Var "final_stmts"),
    ("handlers", .Var "handlers_list"),
    ("orelse", .Var "else_stmts")
  ] [
    ("body", .Obj [
      (KeyType, .String "Try.body"),
      (KeyRoles, .Roles ["Try", "Body"]),
      ("body_stmts", .Var "body_stmts")
    ]),
    ("finalbody", .Obj [
      (KeyType, .String "Try.finalbody"),
      (KeyRoles, .Roles ["Try", "Finally"]),
      ("final_stmts", .Var "final_stmts"),
      (KeyToken, .String "finally")
    ]),
    ("handlers", .Obj [
      (KeyType, .String "Try.handlers"),
      (KeyRoles, .Roles ["Try", "Catch"]),
      ("handlers", .Var "handlers_list"),
      (KeyToken, .String "except")
    ]),
    ("orelse", .Obj [
      (KeyType, .String "Try.else"),
      (KeyRoles, .Roles ["Try", "Else"]),
      (KeyToken, .String "else")
    ])
  ] ["Try", "Statement"]

/-- The `ImportFrom` rule of the table (annotation.go, lines 453-475). -/
def importFromMapping : Mapping :=
  .MapAST "ImportFrom" [
    ("module", .Var "module"),
    ("level", .opLevelDotsNumConv (.Var "level") (.Var "origlevel")),
    ("names", .Var "names")
  ] [
    ("names", .Obj [
      (KeyType, .String "ImportFrom.names"),
      (KeyRoles, .Roles ["Import", "Pathname", "Identifier", "Incomplete"]),
      ("name_list", .Var "names")
    ]),
    ("level", .Obj [
      (KeyType, .String "ImportFrom.level"),
      (KeyToken, .Var "level"),
      (KeyRoles, .Roles ["Import", "Incomplete"])
    ]),
    ("module", .Obj [
      (KeyType, .String "ImportFrom.module"),
      (KeyToken, .Var "module"),
      (KeyRoles, .Roles ["Import", "Pathname", "Identifier"])
    ]),
    ("num_level", .Var "origlevel")
  ] ["Import", "Declaration", "Statement"]

open Mapping ObjAnnotator in
/-- Source variable `Annotations`, entry by entry in the order of the source. -/
def Annotations : List Mapping := [
  ObjectToNode "ast_type" "" "" "" "",
  ObjectToNode "" "lineno" "col_offset" "" "",
  ObjectToNode "" "" "" "end_lineno" "end_col_offset",

  AnnotateType "Module" nil ["File", "Module"],

  -- Comparison operators
  annotateTypeToken "Eq" "==" ["Operator", "Relational", "Equal"],
  annotateTypeToken "NotEq" "!=" ["Operator", "Relational", "Not", "Equal"],
  annotateTypeToken "Lt" "<" ["Operator", "Relational", "LessThan"],
  annotateTypeToken "LtE" "<=" ["Operator", "Relational", "LessThanOrEqual"],
  annotateTypeToken "Gt" ">" ["Operator", "Relational", "GreaterThan"],
  annotateTypeToken "GtE" ">=" ["Operator", "Relational", "GreaterThanOrEqual"],
  annotateTypeToken "Is" "is" ["Operator", "Relational", "Identical"],
  annotateTypeToken "IsNot" "is not" ["Operator", "Relational", "Not", "Identical"],
  annotateTypeToken "In" "in" ["Operator", "Relational", "Contains"],
  annotateTypeToken "NotIn" "not in" ["Operator", "Relational", "Not", "Contains"],

  -- Arithmetic operators
  annotateTypeToken "Add" "+" ["Operator", "Arithmetic", "Add"],
  annotateTypeToken "Sub" "-" ["Operator", "Arithmetic", "Substract"],
  annotateTypeToken "Mult" "*" ["Operator", "Arithmetic", "Multiply"],
  annotateTypeToken "MatMult" "@" ["Operator", "Arithmetic", "Multiply", "Incomplete"],
  annotateTypeToken "Div" "/" ["Operator", "Arithmetic", "Divide"],
  annotateTypeToken "Mod" "%" ["Operator", "Arithmetic", "Module"],
  annotateTypeToken "FloorDiv" "//" ["Operator", "Arithmetic", "Divide", "Incomplete"],
  annotateTypeToken "Pow" "**" ["Operator", "Arithmetic", "Incomplete"],

  -- Bitwise operators
  annotateTypeToken "LShift" "<<" ["Operator", "Bitwise", "LeftShift"],
  annotateTypeToken "RShift" ">>" ["Operator", "Bitwise", "RightShift"],
  annotateTypeToken "BitOr" "|" ["Operator", "Bitwise", "Or"],
  annotateTypeToken "BitXor" "^" ["Operator", "Bitwise", "Xor"],
  annotateTypeToken "BitAnd" "&" ["Operator", "Bitwise", "And"],

  -- Boolean operators
  annotateTypeToken "And" "and" ["Operator", "Boolean", "And"],
  annotateTypeToken "Or" "or" ["Operator", "Boolean", "Or"],
  annotateTypeToken "Not" "not" ["Operator", "Boolean", "Not"],
  AnnotateType "UnaryOp" nil ["Operator", "Boolean", "Unary", "Expression"],

  -- Unary operators
  annotateTypeToken "Invert" "~" ["Operator", "Unary", "Bitwise", "Not"],
  annotateTypeToken "UAdd" "+" ["Operator", "Unary", "Bitwise", "Positive"],
  annotateTypeToken "USub" "-" ["Operator", "Unary", "Bitwise", "Negative"],

  -- Compound literals
  AnnotateType "Set" nil ["Literal", "Set", "Expression", "Primitive"],
  AnnotateType "List" nil ["Literal", "List", "Expression", "Primitive"],
  AnnotateType "Tuple" nil ["Literal", "Tuple", "Expression", "Primitive"],

  -- Expressions
  AnnotateType "Expression" nil ["Expression"],
  AnnotateType "Expr" nil ["Expression"],
  AnnotateType "BoolOp" nil ["Literal", "Boolean", "Incomplete"],

  -- Misc
  annotateTypeToken "Return" "return" ["Return", "Statement"],
  annotateTypeToken "Break" "break" ["Break", "Statement"],
  annotateTypeToken "Continue" "continue" ["Continue", "Statement"],
  annotateTypeToken "Ellipsis" "..." ["Identifier", "Incomplete"],
  annotateTypeToken "Delete" "del" ["Statement", "Incomplete"],
  annotateTypeToken "Await" "await" ["Statement", "Incomplete"],
  annotateTypeToken "Global" "global" ["Statement", "Visibility", "World", "Incomplete"],
  annotateTypeToken "Nonlocal" "nonlocal" ["Statement", "Visibility", "Module", "Incomplete"],
  annotateTypeToken "Yield" "yield" ["Statement", "Return", "Incomplete"],
  annotateTypeToken "With" "with" [],
  annotateTypeToken "For" "for" [],
  annotateTypeToken "If" "if" [],
  annotateTypeToken "Try" "try" [],
  annotateTypeToken "While" "while" [],
  annotateTypeToken "YieldFrom" "yield from" ["Statement", "Return", "Incomplete"],
  AnnotateType "Subscript" nil ["Expression", "Incomplete"],
  AnnotateType "Index" nil ["Expression", "Incomplete"],
  AnnotateType "Slice" nil ["Expression", "Incomplete"],
  AnnotateType "ExtSlice" nil ["Expression", "Incomplete"],
  annotateTypeToken "Pass" "pass" ["Noop", "Statement"],
  annotateTypeToken "Assert" "assert" ["Assert", "Statement"],

  AnnotateType "Name" (FieldRoles [("id", { Rename := KeyToken })])
    ["Identifier", "Expression"],
  AnnotateType "Attribute" (FieldRoles [("attr", { Rename := KeyToken })])
    ["Identifier", "Expression"],

  -- Binary expressions
  AnnotateType "BinOp" (ObjRoles [
    ("left", ["Expression", "Binary", "Left"]),
    ("right", ["Expression", "Binary", "Right"]),
    ("op", ["Binary"])
  ]) ["Expression", "Binary"],

  -- Primitive literals
  AnnotateType "Str" (FieldRoles [("s", { Rename := KeyToken })])
    ["Literal", "String", "Expression", "Primitive"],
  AnnotateType "Bytes" (FieldRoles [("s", { Rename := KeyToken })])
    ["Literal", "ByteString", "Expression", "Primitive"],
  AnnotateType "StringLiteral" (FieldRoles [("s", { Rename := KeyToken })])
    ["Literal", "String", "Expression", "Primitive"],
  AnnotateType "BoolLiteral" (FieldRoles [("LiteralValue", { Rename := KeyToken })])
    ["Literal", "Boolean", "Expression", "Primitive"],
  annotateTypeToken "NoneLiteral" "None" ["Literal", "Null", "Expression", "Primitive"],
  AnnotateType "Num" (FieldRoles [("n", { Rename := KeyToken })])
    ["Expression", "Literal", "Number", "Primitive"],
  AnnotateType "BoolLiteral" (FieldRoles [("LiteralValue", { Rename := KeyToken })])
    ["Expression", "Literal", "Boolean", "Primitive"],
  AnnotateType "Dict" (FieldRoles [
    ("keys", { Arr := true, Roles := ["Map", "Key"] }),
    ("values", { Arr := true, Roles := ["Map", "Value"] })
  ]) ["Expression", "Literal", "Primitive", "Map"],

  AnnotateType "JoinedStr" nil ["Expression", "Literal", "Primitive", "String", "Incomplete"],
  AnnotateType "FormattedValue" nil ["Expression", "Incomplete"],

  AnnotateType "Assign" (FieldRoles [
    ("targets", { Arr := true, Roles := ["Left"] }),
    ("value", { Roles := ["Right"] })
  ]) ["Binary", "Expression", "Assignment"],

  AnnotateType "AugAssign" (ObjRoles [
    ("op", ["Operator"]),
    ("target", ["Right"]),
    ("value", ["Left"])
  ]) ["Binary", "Expression", "Operator", "Assignment"],

  -- Exceptions
  tryMapping,

  AnnotateType "TryExcept" nil ["Try", "Catch", "Statement"],
  AnnotateType "ExceptHandler" (FieldRoles [("name", { Rename := KeyToken })])
    ["Try", "Catch", "Identifier"],
  AnnotateType "TryFinally" nil ["Try", "Finally", "Statement"],
  AnnotateType "Raise" nil ["Throw"],

  AnnotateType "Raise" (FieldRoles [
    ("exc", { Opt := true, Roles := ["Call"] }),
    (KeyToken, { Add := true, Op := some (.String "raise") })
  ]) ["Throw", "Statement"],

  -- With
  withAnnotate "With" [],
  withAnnotate "AsyncWith" [],
  AnnotateType "withitem" nil ["Identifier", "Expression", "Incomplete"],

  AnnotateType "ListComp" nil ["List", "For", "Expression"],
  AnnotateType "DictComp" nil ["Map", "For", "Expression"],
  AnnotateType "SetComp" nil ["Set", "For", "Expression"],

  AnnotateType "comprehension" (FieldRoles [
    ("ifs", { Arr := true, Roles := ["If", "Condition"] }),
    ("iter", { Roles := ["For", "Update", "Statement"] }),
    ("target", { Roles := ["For", "Expression"] })
  ]) ["For", "Iterator", "Expression", "Incomplete"],

  AnnotateType "AnnAssign" nil ["Operator", "Binary", "Assignment"],
  AnnotateType "annotation" nil ["Annotation", "Noop"],
  AnnotateType "returns" nil ["Annotation", "Noop"],

  -- Function declarations
  functionAnnotate "FunctionDef" ["Function", "Declaration", "Name", "Identifier"],
  functionAnnotate "AsyncFunctionDef"
    ["Function", "Declaration", "Name", "Identifier", "Incomplete"],
  MapAST "Lambda" [
    ("body", .Var "body_stmts")
  ] [
    ("body", .Obj [
      (KeyType, .String "FunctionDef.body"),
      (KeyRoles, funcBodyRoles),
      ("body_stmts", .Var "body_stmts")
    ])
  ] ["Function", "Declaration", "Value", "Anonymous"],

  -- Formal arguments
  AnnotateType "arguments" (FieldRoles [
    ("args", { Arr := true, Roles := ["Function", "Declaration", "Argument", "Name", "Identifier"] }),
    ("defaults", { Arr := true, Roles := ["Function", "Declaration", "ArgsList", "Value", "Default"] }),
    ("kw_defaults", { Arr := true, Roles := ["Function", "Declaration", "ArgsList", "Map", "Value", "Default"] }),
    ("kwarg", { Opt := true, Roles := ["Function", "Declaration", "ArgsList", "Map", "Name", "Identifier"] }),
    ("kwonlyargs", { Arr := true, Roles := ["Function", "Declaration", "ArgsList", "Map", "Name", "Identifier"] }),
    ("vararg", { Opt := true, Roles := ["Function", "Declaration", "ArgsList", "Name", "Identifier"] })
  ]) ["Function", "Declaration", "Argument", "Incomplete"],

  AnnotateType "arguments" (FieldRoles [
    ("args", { Arr := true, Roles := ["Function", "Declaration", "Argument", "Name", "Identifier"] }),
    ("defaults", { Arr := true, Roles := ["Function", "Declaration", "ArgsList", "Value", "Default"] }),
    ("kwarg", { Opt := true, Roles := ["Function", "Declaration", "ArgsList", "Map", "Name", "Identifier"] }),
    ("vararg", { Opt := true, Roles := ["Function", "Declaration", "ArgsList", "Name", "Identifier"] })
  ]) ["Function", "Declaration", "Argument", "Incomplete"],

  -- Function calls
  AnnotateType "Call" (FieldRoles [
    ("args", { Arr := true, Roles := ["Function", "Call", "Positional", "Argument", "Name"] }),
    ("func", { Roles := ["Call", "Callee"] }),
    ("keywords", { Arr := true, Roles := ["Function", "Call", "Argument"] })
  ]) ["Function", "Call", "Expression"],

  AnnotateType "keyword" (FieldRoles [
    ("value", { Roles := ["Argument", "Value"] }),
    ("arg", { Rename := KeyToken })
  ]) ["Name"],

  -- Comments and non significative whitespace
  AnnotateType "SameLineNoops" nil ["Comment"],

  AnnotateType "PreviousNoops" (FieldRoles [
    ("lines", { Arr := true, Roles := ["Noop"] })
  ]) ["Noop"],

  AnnotateType "RemainderNoops" (FieldRoles [
    ("lines", { Arr := true, Roles := ["Noop"] })
  ]) ["Noop"],

  AnnotateType "NoopLine" (FieldRoles [
    ("noop_line", { Rename := KeyToken })
  ]) ["Noop", "Comment"],

  AnnotateType "NoopSameLine" (FieldRoles [
    ("s", { Rename := KeyToken })
  ]) ["Noop", "Comment"],

  -- Qualified identifiers
  AnnotateType "Attribute" (FieldRoles [
    ("value", { Arr := true, Roles := ["Qualified"] })
  ]) [],

  -- Import
  AnnotateType "Import" nil ["Import", "Declaration", "Statement"],
  MapAST "Import" [
    ("names", .Var "names")
  ] [
    ("names", .Obj [
      (KeyType, .String "ImportFrom.names"),
      (KeyRoles, .Roles ["Import", "Pathname", "Identifier", "Incomplete"]),
      ("name_list", .Var "names")
    ]),
    (KeyToken, .String "import")
  ] ["Import", "Declaration", "Statement"],

  importFromMapping,

  MapAST "alias" [
    ("asname", .Var "asname"),
    ("name", .Var "name")
  ] [
    ("asname", .Obj [
      (KeyType, .String "alias.asname"),
      (KeyRoles, .Roles ["Import", "Pathname", "Identifier", "Alias"]),
      (KeyToken, .Var "asname")
    ]),
    (KeyToken, .Var "name")
  ] ["Import", "Pathname", "Identifier"],

  -- Class definitions
  MapAST "ClassDef" [
    ("decorator_list", .Var "decors"),
    ("body", .Var "body_stmts"),
    ("bases", .Var "bases")
  ] [
    ("decorator_list", .Obj [
      (KeyType, .String "ClassDef.decorator_list"),
      (KeyRoles, .Roles ["Type", "Declaration", "Call", "Incomplete"]),
      ("decorators", .Var "decors")
    ]),
    ("body", .Obj [
      (KeyType, .String "ClassDef.body"),
      (KeyRoles, .Roles ["Type", "Declaration", "Body"]),
      ("body_stmts", .Var "body_stmts")
    ]),
    ("bases", .Obj [
      (KeyType, .String "ClassDef.bases"),
      (KeyRoles, .Roles ["Type", "Declaration", "Base"]),
      ("bases", .Var "bases")
    ])
  ] ["Type", "Declaration", "Identifier", "Statement"],

  AnnotateType "ClassDef" (FieldRoles [
    ("keywords", { Arr := true, Roles := ["Incomplete"] })
  ]) [],

  AnnotateType "Exec" (FieldRoles [
    ("body", { Roles := ["Call", "Argument", "Positional"] }),
    ("globals", { Roles := ["Call", "Argument", "Positional"] }),
    ("locals", { Roles := ["Call", "Argument", "Positional"] }),
    (KeyToken, { Add := true, Op := some (.String "exec") })
  ]) ["Function", "Call", "Expression"],

  AnnotateType "Print" (FieldRoles [
    ("values", { Arr := true, Roles := ["Call", "Argument", "Positional"] }),
    (KeyToken, { Add := true, Op := some (.String "print") })
  ]) ["Function", "Call", "Callee", "Identifier", "Expression"],

  -- If and IfExpr
  MapAST "If" [
    ("body", .Var "body_stmts"),
    ("orelse", .Var "else_stmts"),
    ("test", .ObjectRoles "test" [])
  ] [
    ("body", .Obj [
      (KeyType, .String "If.body"),
      (KeyRoles, .Roles ["If", "Body", "Then"]),
      ("body_stmts", .Var "body_stmts")
    ]),
    ("orelse", .Obj [
      (KeyType, .String "If.orelse"),
      (KeyRoles, .Roles ["If", "Body", "Else"]),
      ("else_stmts", .Var "else_stmts"),
      (KeyToken, .String "else")
    ]),
    ("test", .ObjectRoles "test" ["If", "Condition"])
  ] ["If", "Expression"],

  AnnotateType "IfExp" (ObjRoles [
    ("body", ["If", "Body", "Then"]),
    ("test", ["If", "Condition"]),
    ("orelse", ["If", "Body", "Else"])
  ]) ["If", "Expression"],

  -- For, AsyncFor and While
  loopAnnotate "For" "For" ["For", "Iterator", "Statement"],
  loopAnnotate "AsyncFor" "For" ["For", "Iterator", "Statement", "Incomplete"],
  loopAnnotate "While" "While" ["While", "Statement"],
  AnnotateType "For" (ObjRoles [
    ("iter", ["For", "Expression"]),
    ("target", ["For", "Update"])
  ]) [],
  AnnotateType "AsyncFor" (ObjRoles [
    ("iter", ["For", "Expression"]),
    ("target", ["For", "Update"])
  ]) [],
  AnnotateType "While" (ObjRoles [
    ("test", ["While", "Condition"])
  ]) [],

  -- Comparison nodes
  MapAST "Compare" [
    ("ops", .Var "ops"),
    ("comparators", .Var "comparators")
  ] [
    ("ops", .Obj [
      (KeyType, .String "Compare.ops"),
      (KeyRoles, .Roles ["Expression"]),
      ("ops", .Var "ops")
    ]),
    ("comparators", .Obj [
      (KeyType, .String "Compare.comparators"),
      (KeyRoles, .Roles ["Expression", "Right"]),
      ("comparators", .Var "comparators")
    ])
  ] ["Expression", "Binary", "Condition"],

  AnnotateType "Compare" (ObjRoles [
    ("left", ["Expression", "Left"])
  ]) []
]

/-! ## Reading the rule table -/

mutual
/-- Variable names that occur in a pattern or template element. For
`ObjectRoles(vr, ...)` it is the variable name `vr` the call is given. -/
def patVars : Pat → List String
  | .Var name => [name]
  | .String _ => []
  | .Roles _ => []
  | .Obj fields => patFieldsVars fields
  | .opLevelDotsNumConv op orig => patVars op ++ patVars orig
  | .ObjectRoles vr _ => [vr]
/-- Variable names that occur in the fields of an `Obj` literal. -/
def patFieldsVars : List (String × Pat) → List String
  | [] => []
  | (_, p) :: rest => patVars p ++ patFieldsVars rest
end

/-- Every name of the first list is in the second. -/
def subsetOf (a b : List String) : Bool := a.all (fun x => b.contains x)

/-- The two lists hold the same set of names. -/
def sameSet (a b : List String) : Bool := subsetOf a b && subsetOf b a

/-- The first list is a strict subset of the second, as sets of names. -/
def strictSubset (a b : List String) : Bool := subsetOf a b && !subsetOf b a

/-- The rule was built by `MapAST`. -/
def Mapping.isMapAST : Mapping → Bool
  | .MapAST _ _ _ _ => true
  | _ => false

/-- Variable names of the native pattern of a `MapAST` rule. -/
def Mapping.nativeVars : Mapping → List String
  | .MapAST _ ast _ _ => patFieldsVars ast
  | _ => []

/-- Variable names of the normalized template of a `MapAST` rule. -/
def Mapping.normVars : Mapping → List String
  | .MapAST _ _ norm _ => patFieldsVars norm
  | _ => []

/-- The native pattern and the normalized template of the rule name the same
set of variables. -/
def Mapping.varsConsistent (m : Mapping) : Bool := sameSet m.nativeVars m.normVars

/-- Native type tag the rule is keyed by; `ObjectToNode` rules have none. -/
def Mapping.typ : Mapping → Option String
  | .ObjectToNode _ _ _ _ _ => none
  | .AnnotateType typ _ _ => some typ
  | .MapAST typ _ _ _ => some typ

/-- Fields of the native node the rule names: the keys of the native `Obj` of
a `MapAST` rule, the keys of an `ObjRoles` literal, and the keys of a
`FieldRoles` literal except those marked `Add` (a field the rule creates in the
normalized node and that the native node does not have). -/
def Mapping.namedFields : Mapping → List String
  | .ObjectToNode _ _ _ _ _ => []
  | .AnnotateType _ .nil _ => []
  | .AnnotateType _ (.FieldRoles fields) _ =>
    (fields.filter (fun f => !f.2.Add)).map Prod.fst
  | .AnnotateType _ (.ObjRoles fields) _ => fields.map Prod.fst
  | .MapAST _ ast _ _ => ast.map Prod.fst

/-- Fields of the native node the rule constrains, that is the fields a node
must have for the rule to match: the keys of the native `Obj` of a `MapAST`
rule and the keys of a `FieldRoles` literal that are marked neither `Add` nor
`Opt`. The keys of an `ObjRoles` literal are optional in the library and
constrain nothing. -/
def Mapping.nativeFields : Mapping → List String
  | .ObjectToNode _ _ _ _ _ => []
  | .AnnotateType _ .nil _ => []
  | .AnnotateType _ (.FieldRoles fields) _ =>
    (fields.filter (fun f => !f.2.Add && !f.2.Opt)).map Prod.fst
  | .AnnotateType _ (.ObjRoles _) _ => []
  | .MapAST _ ast _ _ => ast.map Prod.fst

/-- Type tag, constrained fields and named fields of every rule, in table
order. -/
def ruleKeys (rules : List Mapping) : List (Option String × List String × List String) :=
  rules.map (fun m => (m.typ, m.nativeFields, m.namedFields))

/-- The precedence rule as the specification words it: whenever two rules
share a type tag and the fields the first constrains are a strict subset of the
fields the second constrains (the first is the generic one), the second, more
specific rule stands earlier in the table. -/
def specificFirst (keys : List (Option String × List String × List String)) : Prop :=
  ∀ (i j : Nat) (a b : Option String × List String × List String),
    keys[i]? = some a → keys[j]? = some b → a.1 = b.1 → a.1.isSome = true →
    strictSubset a.2.1 b.2.1 = true → j < i

/-- The order the table keeps between a generic rule `a` at position `i` that
names at least one field of the native node and a more specific rule `b` of the
same tag at position `j`: the specific rule comes first. Pairs that are not of
that kind are accepted. -/
def pairOk (a b : Option String × List String × List String) (i j : Nat) : Bool :=
  !(a.1 == b.1 && a.1.isSome && strictSubset a.2.1 b.2.1 && !a.2.2.isEmpty) ||
    decide (j < i)

/-- Every pair of positions of the table satisfies `pairOk`. -/
def tableOk (keys : List (Option String × List String × List String)) : Bool :=
  (List.range keys.length).all fun i => (List.range keys.length).all fun j =>
    match keys[i]?, keys[j]? with
    | some a, some b => pairOk a b i j
    | _, _ => true

/-! ## The matching engine behind `MapAST` -/

/-- Modelled from the spec: a literal element (`String(s)`, `Roles(...)`) of
the transformer library, whose code is not under src/. It matches a node equal
to the literal, binds nothing, and constructs the literal. -/
def Is (lit : Node) : Op where
  Check := fun st n => some ((Node.Equal lit n, none), st)
  Construct := fun st _ => some ((lit, none), st)

/-- The node a `Roles(...)` literal stands for: the array of the role names. -/
def rolesNode (roles : List Role) : Node :=
  .Array (roles.map (fun r => .value (.String r)))

/-- Modelled from the spec: matching the fields of an object pattern, whose
library code is not under src/. Every field of the pattern must be present in
the candidate and its sub-pattern must match; the fields are tried in order and
the first failure ends the match. -/
def checkFields : List (String × Op) → State → List (String × Node) →
    Option ((Bool × Option Err) × State)
  | [], st, _ => some ((true, none), st)
  | (k, op) :: rest, st, o =>
    match o.lookup k with
    | none => some ((false, none), st)
    | some child =>
      match op.Check st child with
      | none => none
      | some ((ok, err), st1) =>
        if err ≠ none ∨ ok = false then some ((false, err), st1)
        else checkFields rest st1 o

/-- Modelled from the spec: building the fields of an object template, whose
library code is not under src/. Every field is constructed from the bindings,
in order; the first error ends the construction and no object is returned. -/
def constructFields : List (String × Op) → State →
    Option ((List (String × Node) × Option Err) × State)
  | [], st => some (([], none), st)
  | (k, op) :: rest, st =>
    match op.Construct st .nil with
    | none => none
    | some ((child, err), st1) =>
      if err ≠ none then some (([], err), st1)
      else
        match constructFields rest st1 with
        | none => none
        | some ((fs, err2), st2) =>
          if err2 ≠ none then some (([], err2), st2)
          else some (((k, child) :: fs, none), st2)

/-- Modelled from the spec: an `Obj{...}` element of the transformer library,
whose code is not under src/. Matching needs an object and matches it by
required field presence and per-field sub-patterns; constructing builds the
object of the constructed fields. -/
def objOp (fields : List (String × Op)) : Op where
  Check := fun st n =>
    match n with
    | .Object o => checkFields fields st o
    | _ => some ((false, none), st)
  Construct := fun st _ =>
    match constructFields fields st with
    | none => none
    | some ((fs, err), st1) =>
      if err ≠ none then some ((.nil, err), st1) else some ((.Object fs, none), st1)

/-- Library constructors used by the table whose behaviour the development
does not fix: they are parameters of the engine. -/
structure Library where
  ObjectRoles : String → List Role → Op
  AnnotateType : String → ObjAnnotator → List Role → Op × Op
  ObjectToNode : String → String → String → String → String → Op × Op

/-- A library whose unmodelled constructors all stand for the literal nil
node; it serves to run the engine on rules that do not use them. -/
def noLibrary : Library where
  ObjectRoles := fun _ _ => Is .nil
  AnnotateType := fun _ _ _ => (Is .nil, Is .nil)
  ObjectToNode := fun _ _ _ _ _ => (Is .nil, Is .nil)

mutual
/-- The operator a pattern element denotes, while the allocator can serve
`heap` bytes. -/
def patToOp (heap : Nat) (lib : Library) : Pat → Op
  | .Var name => Var name
  | .String s => Is (.value (.String s))
  | .Roles roles => Is (rolesNode roles)
  | .Obj fields => objOp (patFieldOps heap lib fields)
  | .opLevelDotsNumConv op orig =>
    (opLevelDotsNumConv.mk (patToOp heap lib op) (patToOp heap lib orig)).toOp heap
  | .ObjectRoles vr roles => lib.ObjectRoles vr roles
/-- The operators of the fields of an `Obj` literal. -/
def patFieldOps (heap : Nat) (lib : Library) : List (String × Pat) → List (String × Op)
  | [] => []
  | (k, p) :: rest => (k, patToOp heap lib p) :: patFieldOps heap lib rest
end

/-- Modelled from the spec: open-world matching of an object, library code
(`Part`) that is not under src/. The candidate must be an object; the fields
the pattern does not mention are kept aside unexamined under the variable `vr`
and the mentioned fields are matched one by one. Constructing builds the fields
of the template and adds the fields kept aside, which pass through unchanged; a
kept field whose name collides with a constructed one is an error. -/
def Part (vr : String) (fields : List (String × Op)) : Op where
  Check := fun st n =>
    match n with
    | .Object o =>
      let rest := o.filter (fun kv => !(fields.map Prod.fst).contains kv.1)
      match st.SetVar vr (.Object rest) with
      | (some e, st1) => some ((false, some e), st1)
      | (none, st1) => checkFields fields st1 o
    | _ => some ((false, none), st)
  Construct := fun st _ =>
    match constructFields fields st with
    | none => none
    | some ((fs, err), st1) =>
      if err ≠ none then some ((.nil, err), st1)
      else
        match st1.GetVar vr with
        | none => some ((.nil, some (.ErrVariableNotDefined vr)), st1)
        | some (.Object rest) =>
          if rest.any (fun kv => (fs.map Prod.fst).contains kv.1) then
            some ((.nil, some (.other "field already set")), st1)
          else some ((.Object (fs ++ rest), none), st1)
        | some other => some ((.nil, some (.ErrUnexpectedNode other)), st1)

/-- Modelled from the spec: the native side of `MapAST(typ, ast, norm, roles)`,
library code that is not under src/: the native pattern, keyed by the type tag
`typ`, matched open-world. -/
def ASTObjectLeft (typ : String) (ast : List (String × Op)) : Op :=
  Part "_" ((KeyType, Is (.value (.String typ))) :: ast)

/-- Modelled from the spec: the normalized side of `MapAST(typ, ast, norm,
roles)`, library code that is not under src/: the template, with the type tag
and the fixed role set of the rule spliced in. -/
def ASTObjectRight (typ : String) (norm : List (String × Op)) (roles : List Role) : Op :=
  Part "_" ((KeyType, Is (.value (.String typ))) :: (KeyRoles, Is (rolesNode roles)) :: norm)

/-- The pair of operators of a rule: the native side and the normalized side.
Normalizing matches with the first and constructs with the second. -/
def Mapping.ops (heap : Nat) (lib : Library) : Mapping → Op × Op
  | .ObjectToNode t l c el ec => lib.ObjectToNode t l c el ec
  | .AnnotateType typ fields roles => lib.AnnotateType typ fields roles
  | .MapAST typ ast norm roles =>
    (ASTObjectLeft typ (patFieldOps heap lib ast),
     ASTObjectRight typ (patFieldOps heap lib norm) roles)

/-! ## The pipeline (annotation.go, lines 12-24; transforms.go) -/

/-- Stages of the tree pipeline, by the library constructor that builds them. -/
inductive Transformer where
  | ResponseMetadata (TopLevelIsRootNode : Bool)
  | Mappings (maps : List Mapping)
  | RolesDedup

/-- Stages that work on the tree together with the source text. -/
inductive CodeTransformer where
  | FillOffsetFromLineCol
  deriving DecidableEq

/-- Library function `Transformers`: the given groups of stages appended into
one list. -/
def Transformers (arr : List (List Transformer)) : List Transformer := arr.flatten

/-- Source variable `Native`. -/
def Native : List Transformer := Transformers [
  [.ResponseMetadata false],
  [.Mappings Annotations],
  [.RolesDedup]
]

/-- Source variable `Code`. -/
def Code : List CodeTransformer := [.FillOffsetFromLineCol]

/-- Record `driver.Transforms` of the driver library. -/
structure DriverTransforms where
  Namespace : String
  Preprocess : List Transformer
  PreprocessCode : List CodeTransformer
  Normalize : List Transformer
  Annotations : List Transformer
  Code : List CodeTransformer

/-- Source variable `Transforms` (transforms.go). `Preprocess`,
`PreprocessCode` and `Normalize` are package variables declared outside the two
source files; they are parameters. -/
def Transforms (Preprocess : List Transformer) (PreprocessCode : List CodeTransformer)
    (Normalize : List Transformer) : DriverTransforms where
  Namespace := "python"
  Preprocess := Preprocess
  PreprocessCode := PreprocessCode
  Normalize := Normalize
  Annotations := Native
  Code := Code

/-! ## Helper lemmas -/

set_option maxRecDepth 8192

theorem goInt_of_range (i : Int) (h0 : -(2 ^ 63) ≤ i) (h1 : i < 2 ^ 63) : goInt i = i := by
  unfold goInt
  omega

theorem replicate_dot_flatten (n : Nat) :
    (List.replicate n ['.']).flatten = List.replicate n '.' := by
  induction n with
  | zero => rfl
  | succ k ih => simp [List.replicate_succ, ih]

theorem num2dots_of_nonneg (heap : Nat) (n : Int) (h0 : 0 ≤ n) (h1 : n ≤ heap)
    (h2 : n ≤ maxAlloc) :
    num2dots heap (.Int n) = some (.String (String.mk (List.replicate n.toNat '.'))) := by
  have hm : (maxAlloc : Int) = 2 ^ 48 := by
    unfold maxAlloc
    norm_num
  have hr : goInt n = n := goInt_of_range n (by omega) (by omega)
  have hsz : ".".utf8ByteSize = 1 := by decide
  have hc : ¬ (n < 0 ∨ (2 : Int) ^ 63 ≤ ((1 : Nat) : Int) * n ∨
      (maxAlloc : Int) < ((1 : Nat) : Int) * n ∨ (heap : Int) < ((1 : Nat) : Int) * n) := by
    push_cast
    omega
  simp only [num2dots, hr, stringsRepeat, hsz]
  rw [if_neg hc]
  simp only [Option.map, replicate_dot_flatten]

theorem num2dots_of_too_long (heap : Nat) (n : Int) (h0 : -(2 ^ 63) ≤ n) (h1 : n < 2 ^ 63)
    (h : (heap : Int) < n ∨ (maxAlloc : Int) < n) : num2dots heap (.Int n) = none := by
  have hr : goInt n = n := goInt_of_range n h0 h1
  have hsz : ".".utf8ByteSize = 1 := by decide
  have hc : n < 0 ∨ (2 : Int) ^ 63 ≤ ((1 : Nat) : Int) * n ∨
      (maxAlloc : Int) < ((1 : Nat) : Int) * n ∨ (heap : Int) < ((1 : Nat) : Int) * n := by
    push_cast
    rw [one_mul]
    rcases h with h | h
    · exact Or.inr (Or.inr (Or.inr h))
    · exact Or.inr (Or.inr (Or.inl h))
  simp only [num2dots, hr, stringsRepeat, hsz]
  rw [if_pos hc]
  rfl

theorem lookup_append_single (l : List (String × Node)) (k : String) (v : Node)
    (h : l.lookup k = none) : (l ++ [(k, v)]).lookup k = some v := by
  rw [List.lookup_append, h]
  simp [List.lookup]

theorem Equal_int_right (cur : Node) (i : Int)
    (h : Node.Equal cur (.value (.Int i)) = true) : cur = .value (.Int i) := by
  cases cur with
  | nil => simp [Node.Equal] at h
  | Array xs => simp [Node.Equal] at h
  | Object fs => simp [Node.Equal] at h
  | value w =>
    cases w <;> simp [Node.Equal, valueEqual] at h
    rw [h]

/-- After a successful `Var(name).Check` on an `Int`, the name is bound to that
`Int` in the state left behind. -/
theorem Var_check_int_binds (name : String) (st st1 : State) (i : Int)
    (h : (Var name).Check st (.value (.Int i)) = some ((true, none), st1)) :
    st1.GetVar name = some (.value (.Int i)) := by
  simp only [Var, State.SetVar] at h
  cases hg : st.GetVar name with
  | none =>
    rw [hg] at h
    simp only [Option.some.injEq, Prod.mk.injEq, true_and] at h
    rw [← h]
    exact lookup_append_single st.vars name _ hg
  | some cur =>
    rw [hg] at h
    by_cases he : Node.Equal cur (.value (.Int i)) = true
    · simp only [he, if_true, Option.some.injEq, Prod.mk.injEq, true_and] at h
      rw [← h, hg, Equal_int_right cur i he]
    · simp [he] at h

/-! ## The claims -/

/-- C1, as stated, fails: the count `2^63 - 1` is not negative, yet
`strings.Repeat` cannot allocate a string of that length, whatever memory is
free, and `num2dots` does not return. -/
theorem num2dots_max_count_does_not_return :
    (0 : Int) ≤ 2 ^ 63 - 1 ∧ num2dots maxAlloc (.Int (2 ^ 63 - 1)) = none ∧
    ∀ heap : Nat, num2dots heap (.Int (2 ^ 63 - 1)) = none := by
  have hm : (maxAlloc : Int) = 2 ^ 48 := by
    unfold maxAlloc
    norm_num
  have h : ∀ heap : Nat, num2dots heap (.Int (2 ^ 63 - 1)) = none := fun heap =>
    num2dots_of_too_long heap (2 ^ 63 - 1) (by norm_num) (by norm_num)
      (Or.inr (by rw [hm]; norm_num))
  exact ⟨by norm_num, h maxAlloc, h⟩

/-- C1, amended: for every integer count `n ≥ 0` that the runtime can allocate
(`n` is at most the `heap` bytes the allocator can serve and at most
`maxAlloc`), `num2dots` applied to the `Int` `n` returns the `String` made of
exactly `n` characters `'.'`: its length is `n` and every character is `'.'`.
At `3` this is `"..."`, at `0` the empty string. -/
theorem num2dots_int_is_dots (heap : Nat) (n : Int) (h0 : 0 ≤ n) (h1 : n ≤ heap)
    (h2 : n ≤ maxAlloc) :
    num2dots heap (.Int n) = some (.String (String.mk (List.replicate n.toNat '.'))) ∧
    ((String.mk (List.replicate n.toNat '.')).length : Int) = n ∧
    ∀ c ∈ (String.mk (List.replicate n.toNat '.')).data, c = '.' := by
  refine ⟨num2dots_of_nonneg heap n h0 h1 h2, ?_, ?_⟩
  · simp only [String.length, List.length_replicate]
    omega
  · intro c hc
    exact List.eq_of_mem_replicate hc

theorem num2dots_int_is_dots_witness :
    num2dots 3 (.Int 3) = some (.String "...") ∧ num2dots 0 (.Int 0) = some (.String "") :=
  ⟨(num2dots_int_is_dots 3 3 (by decide) (by decide) (by decide)).1,
   (num2dots_int_is_dots 0 0 (by decide) (by decide) (by decide)).1⟩

/-- C2, as stated, fails: on the `String` `"abc"` and the empty state the
`Check` of the level converter succeeds, and `Construct` over the bindings it
leaves returns `ErrExpectedValue` and no node. -/
theorem levelConv_roundtrip_fails_on_string :
    levelConv.Check maxAlloc State.empty (.value (.String "abc")) =
      some ((true, none),
        ⟨[("level", .value (.String "abc")), ("origlevel", .value (.String "abc"))]⟩) ∧
    levelConv.Construct
        ⟨[("level", .value (.String "abc")), ("origlevel", .value (.String "abc"))]⟩ .nil =
      some ((.nil, some (.ErrExpectedValue (.value (.String "abc")))),
        ⟨[("level", .value (.String "abc")), ("origlevel", .value (.String "abc"))]⟩) := by
  decide

/-- C2, amended: round trip of the level converter on `Int` candidates. For
every `Int` node and every binding state in which `Check` succeeds, `Construct`
(on the nil template) over the bindings left by that `Check` returns, without
error, that same `Int` node. -/
theorem levelConv_roundtrip_int (heap : Nat) (st : State) (i : Int) (st1 : State)
    (h : levelConv.Check heap st (.value (.Int i)) = some ((true, none), st1)) :
    levelConv.Construct st1 .nil = some ((.value (.Int i), none), st1) := by
  have hb : st1.GetVar "origlevel" = some (.value (.Int i)) := by
    simp only [opLevelDotsNumConv.Check, levelConv] at h
    cases hn : num2dots heap (.Int i) with
    | none => rw [hn] at h; simp at h
    | some nv =>
      rw [hn] at h
      simp only at h
      cases h1 : (Var "level").Check st (.value nv) with
      | none => rw [h1] at h; simp at h
      | some out =>
        obtain ⟨⟨r1, e1⟩, s1⟩ := out
        rw [h1] at h
        simp only at h
        by_cases hc : e1 ≠ none ∨ r1 = false
        · rw [if_pos hc] at h
          simp at h
        · rw [if_neg hc] at h
          cases h2 : (Var "origlevel").Check s1 (.value (.Int i)) with
          | none => rw [h2] at h; simp at h
          | some out2 =>
            obtain ⟨⟨r2, e2⟩, s2⟩ := out2
            rw [h2] at h
            simp only at h
            by_cases hc2 : e2 ≠ none ∨ r2 = false
            · rw [if_pos hc2] at h
              simp at h
            · rw [if_neg hc2] at h
              simp only [Option.some.injEq, Prod.mk.injEq] at h
              have hs : s2 = st1 := h.2
              have hr2 : r2 = true := by
                cases r2 with
                | true => rfl
                | false => exact absurd (Or.inr rfl) hc2
              have he2 : e2 = none := by
                cases e2 with
                | none => rfl
                | some e => exact absurd (Or.inl (by simp)) hc2
              subst hs hr2 he2
              exact Var_check_int_binds "origlevel" s1 s2 i h2
  simp only [opLevelDotsNumConv.Construct, levelConv, Var, hb]
  simp

theorem levelConv_roundtrip_int_witness :
    levelConv.Check maxAlloc State.empty (.value (.Int 3)) =
      some ((true, none),
        ⟨[("level", .value (.String "...")), ("origlevel", .value (.Int 3))]⟩) ∧
    levelConv.Construct
        ⟨[("level", .value (.String "...")), ("origlevel", .value (.Int 3))]⟩ .nil =
      some ((.value (.Int 3), none),
        ⟨[("level", .value (.String "...")), ("origlevel", .value (.Int 3))]⟩) :=
  ⟨by decide, levelConv_roundtrip_int maxAlloc State.empty 3 _ (by decide)⟩

/-- C3, as stated, fails: on the `Bool` `true`, a value that is not an `Int`,
the `Check` of the level converter reports no error and matches. -/
theorem levelConv_check_accepts_bool :
    num2dots maxAlloc (.Bool true) = some (.Bool true) ∧
    levelConv.Check maxAlloc State.empty (.value (.Bool true)) =
      some ((true, none),
        ⟨[("level", .value (.Bool true)), ("origlevel", .value (.Bool true))]⟩) := by
  decide

/-- C3, amended: for every value `v` that is not an `Int`, `num2dots` returns
`v` unchanged and `Check` raises no conversion failure of its own. Both inner
checks are run on `v` itself: when both accept `v`, `Check` returns true with no
error, and an error that `Check` reports is an error that an inner check
reported on `v`. -/
theorem check_non_int_passes_through (c : opLevelDotsNumConv) (heap : Nat) (st : State) (v : Value)
    (hv : ∀ i, v ≠ .Int i) :
    num2dots heap v = some v ∧
    (∀ st1 st2, c.op.Check st (.value v) = some ((true, none), st1) →
      c.orig.Check st1 (.value v) = some ((true, none), st2) →
      c.Check heap st (.value v) = some ((true, none), st2)) ∧
    (∀ r e st2, c.Check heap st (.value v) = some ((r, some e), st2) →
      (∃ r1, c.op.Check st (.value v) = some ((r1, some e), st2)) ∨
      (∃ st1 r2, c.op.Check st (.value v) = some ((true, none), st1) ∧
        c.orig.Check st1 (.value v) = some ((r2, some e), st2))) := by
  have hn : num2dots heap v = some v := by
    cases v with
    | Int i => exact absurd rfl (hv i)
    | String s => rfl
    | Float b => rfl
    | Bool b => rfl
  refine ⟨hn, ?_, ?_⟩
  · intro st1 st2 h1 h2
    simp [opLevelDotsNumConv.Check, hn, h1, h2]
  · intro r e st2 h
    simp only [opLevelDotsNumConv.Check, hn] at h
    cases h1 : c.op.Check st (.value v) with
    | none => rw [h1] at h; simp at h
    | some out =>
      obtain ⟨⟨r1, e1⟩, s1⟩ := out
      rw [h1] at h
      simp only at h
      by_cases hc : e1 ≠ none ∨ r1 = false
      · rw [if_pos hc] at h
        simp only [Option.some.injEq, Prod.mk.injEq] at h
        obtain ⟨⟨_, he⟩, hs⟩ := h
        left
        exact ⟨r1, by rw [he, hs]⟩
      · rw [if_neg hc] at h
        have hr1 : r1 = true := by
          cases r1 with
          | true => rfl
          | false => exact absurd (Or.inr rfl) hc
        have he1 : e1 = none := by
          cases e1 with
          | none => rfl
          | some e => exact absurd (Or.inl (by simp)) hc
        subst hr1 he1
        cases h2 : c.orig.Check s1 (.value v) with
        | none => rw [h2] at h; simp at h
        | some out2 =>
          obtain ⟨⟨r2, e2⟩, s2⟩ := out2
          rw [h2] at h
          simp only at h
          by_cases hc2 : e2 ≠ none ∨ r2 = false
          · rw [if_pos hc2] at h
            simp only [Option.some.injEq, Prod.mk.injEq] at h
            obtain ⟨⟨_, he⟩, hs⟩ := h
            right
            exact ⟨s1, r2, rfl, by rw [h2, he, hs]⟩
          · rw [if_neg hc2] at h
            simp at h

theorem check_non_int_passes_through_witness :
    (∀ i, Value.Bool true ≠ .Int i) ∧ num2dots maxAlloc (.Bool true) = some (.Bool true) :=
  ⟨fun _ h => Value.noConfusion h,
   (check_non_int_passes_through levelConv maxAlloc State.empty (.Bool true)
      (fun _ h => Value.noConfusion h)).1⟩

/-- C4, as stated, fails: with `origlevel` already bound to `5`, `Check` on the
`Int` `3` returns an error from the second inner check, and the binding of
`level` added by the first inner check is still there afterwards. -/
theorem levelConv_failed_check_keeps_binding :
    levelConv.Check maxAlloc ⟨[("origlevel", .value (.Int 5))]⟩ (.value (.Int 3)) =
      some ((false,
          some (.ErrVariableRedeclared "origlevel" (.value (.Int 5)) (.value (.Int 3)))),
        ⟨[("origlevel", .value (.Int 5)), ("level", .value (.String "..."))]⟩) ∧
    (⟨[("origlevel", .value (.Int 5)), ("level", .value (.String "..."))]⟩ : State) ≠
      ⟨[("origlevel", .value (.Int 5))]⟩ := by
  decide

/-- C4, amended: `Check` adds no rollback of its own. Whenever `Check` returns
false or an error, the bindings after the call are those left by the last inner
check that ran: the bindings before the call when the node is not a value,
those left by the first inner check when that check fails, and those left by
the second inner check, run on the state the successful first one left, when
the second fails. -/
theorem check_failure_state (c : opLevelDotsNumConv) (heap : Nat) (st : State) (n : Node)
    (r : Bool) (e : Option Err) (st1 : State)
    (h : c.Check heap st n = some ((r, e), st1)) (hf : r = false ∨ e ≠ none) :
    ((∀ v, n ≠ .value v) ∧ st1 = st ∧ e = none) ∨
    (∃ v nv, n = .value v ∧ num2dots heap v = some nv ∧
      ((∃ r1, c.op.Check st (.value nv) = some ((r1, e), st1) ∧ (e ≠ none ∨ r1 = false)) ∨
       (∃ s1 r2, c.op.Check st (.value nv) = some ((true, none), s1) ∧
          c.orig.Check s1 (.value v) = some ((r2, e), st1) ∧ (e ≠ none ∨ r2 = false)))) := by
  cases n with
  | nil =>
    simp only [opLevelDotsNumConv.Check, Option.some.injEq, Prod.mk.injEq] at h
    exact Or.inl ⟨fun _ hn => Node.noConfusion hn, h.2.symm, h.1.2.symm⟩
  | Array xs =>
    simp only [opLevelDotsNumConv.Check, Option.some.injEq, Prod.mk.injEq] at h
    exact Or.inl ⟨fun _ hn => Node.noConfusion hn, h.2.symm, h.1.2.symm⟩
  | Object fs =>
    simp only [opLevelDotsNumConv.Check, Option.some.injEq, Prod.mk.injEq] at h
    exact Or.inl ⟨fun _ hn => Node.noConfusion hn, h.2.symm, h.1.2.symm⟩
  | value v =>
    right
    simp only [opLevelDotsNumConv.Check] at h
    cases hn : num2dots heap v with
    | none => rw [hn] at h; simp at h
    | some nv =>
      rw [hn] at h
      simp only at h
      refine ⟨v, nv, rfl, hn, ?_⟩
      cases h1 : c.op.Check st (.value nv) with
      | none => rw [h1] at h; simp at h
      | some out =>
        obtain ⟨⟨r1, e1⟩, s1⟩ := out
        rw [h1] at h
        simp only at h
        by_cases hc : e1 ≠ none ∨ r1 = false
        · rw [if_pos hc] at h
          simp only [Option.some.injEq, Prod.mk.injEq] at h
          obtain ⟨⟨_, he⟩, hs⟩ := h
          subst he hs
          exact Or.inl ⟨r1, rfl, hc⟩
        · rw [if_neg hc] at h
          have hr1 : r1 = true := by
            cases r1 with
            | true => rfl
            | false => exact absurd (Or.inr rfl) hc
          have he1 : e1 = none := by
            cases e1 with
            | none => rfl
            | some e => exact absurd (Or.inl (by simp)) hc
          subst hr1 he1
          cases h2 : c.orig.Check s1 (.value v) with
          | none => rw [h2] at h; simp at h
          | some out2 =>
            obtain ⟨⟨r2, e2⟩, s2⟩ := out2
            rw [h2] at h
            simp only at h
            by_cases hc2 : e2 ≠ none ∨ r2 = false
            · rw [if_pos hc2] at h
              simp only [Option.some.injEq, Prod.mk.injEq] at h
              obtain ⟨⟨_, he⟩, hs⟩ := h
              subst he hs
              exact Or.inr ⟨s1, r2, rfl, h2, hc2⟩
            · rw [if_neg hc2] at h
              simp only [Option.some.injEq, Prod.mk.injEq] at h
              obtain ⟨⟨hr, he⟩, _⟩ := h
              have hr2 : r2 = true := by
                cases r2 with
                | true => rfl
                | false => exact absurd (Or.inr rfl) hc2
              subst hr2
              rcases hf with hf | hf
              · rw [hf] at hr; simp at hr
              · exact absurd he.symm hf

theorem check_failure_state_witness :
    levelConv.Check maxAlloc ⟨[("origlevel", .value (.Int 5))]⟩ (.value (.Int 3)) =
      some ((false,
          some (.ErrVariableRedeclared "origlevel" (.value (.Int 5)) (.value (.Int 3)))),
        ⟨[("origlevel", .value (.Int 5)), ("level", .value (.String "..."))]⟩) ∧
    (((∀ v, Node.value (.Int 3) ≠ .value v) ∧
        (⟨[("origlevel", .value (.Int 5)), ("level", .value (.String "..."))]⟩ : State) =
          ⟨[("origlevel", .value (.Int 5))]⟩ ∧
        some (Err.ErrVariableRedeclared "origlevel" (.value (.Int 5)) (.value (.Int 3))) =
          none) ∨
      (∃ v nv, Node.value (.Int 3) = .value v ∧ num2dots maxAlloc v = some nv ∧
        ((∃ r1, levelConv.op.Check ⟨[("origlevel", .value (.Int 5))]⟩ (.value nv) =
              some ((r1,
                some (.ErrVariableRedeclared "origlevel" (.value (.Int 5)) (.value (.Int 3)))),
                ⟨[("origlevel", .value (.Int 5)), ("level", .value (.String "..."))]⟩) ∧
            (some (Err.ErrVariableRedeclared "origlevel" (.value (.Int 5)) (.value (.Int 3))) ≠
              none ∨ r1 = false)) ∨
         (∃ s1 r2, levelConv.op.Check ⟨[("origlevel", .value (.Int 5))]⟩ (.value nv) =
              some ((true, none), s1) ∧
            levelConv.orig.Check s1 (.value v) =
              some ((r2,
                some (.ErrVariableRedeclared "origlevel" (.value (.Int 5)) (.value (.Int 3)))),
                ⟨[("origlevel", .value (.Int 5)), ("level", .value (.String "..."))]⟩) ∧
            (some (Err.ErrVariableRedeclared "origlevel" (.value (.Int 5)) (.value (.Int 3))) ≠
              none ∨ r2 = false))))) :=
  ⟨by decide,
   check_failure_state levelConv maxAlloc ⟨[("origlevel", .value (.Int 5))]⟩ (.value (.Int 3)) false
     (some (.ErrVariableRedeclared "origlevel" (.value (.Int 5)) (.value (.Int 3))))
     ⟨[("origlevel", .value (.Int 5)), ("level", .value (.String "..."))]⟩
     (by decide) (Or.inl rfl)⟩

/-- C5: `Construct` returns an error exactly when `orig.Construct` fails, and
then it is that error, or when `orig.Construct` succeeds with a node that is
not an `Int`, and then it is `ErrExpectedValue` on that node; otherwise it
returns that `Int` and no error. It never returns both a node and an error. -/
theorem construct_error_cases (c : opLevelDotsNumConv) (st : State) (n m : Node)
    (e : Option Err) (s1 : State) (h : c.orig.Construct st n = some ((m, e), s1)) :
    (∀ x, e = some x → c.Construct st n = some ((.nil, some x), s1)) ∧
    (e = none → (∀ i, m ≠ .value (.Int i)) →
      c.Construct st n = some ((.nil, some (.ErrExpectedValue m)), s1)) ∧
    (e = none → ∀ i, m = .value (.Int i) →
      c.Construct st n = some ((.value (.Int i), none), s1)) ∧
    (∀ res err s2, c.Construct st n = some ((res, err), s2) →
      (err ≠ none ↔ (e ≠ none ∨ ∀ i, m ≠ .value (.Int i))) ∧ (err ≠ none → res = .nil)) := by
  have h1 : ∀ x, e = some x → c.Construct st n = some ((.nil, some x), s1) := by
    intro x hx
    subst hx
    simp [opLevelDotsNumConv.Construct, h]
  have h2 : e = none → (∀ i, m ≠ .value (.Int i)) →
      c.Construct st n = some ((.nil, some (.ErrExpectedValue m)), s1) := by
    intro he hm
    subst he
    simp only [opLevelDotsNumConv.Construct, h]
    cases m with
    | nil => simp
    | Array xs => simp
    | Object fs => simp
    | value w =>
      cases w with
      | Int i => exact absurd rfl (hm i)
      | String _ => simp
      | Float _ => simp
      | Bool _ => simp
  have h3 : e = none → ∀ i, m = .value (.Int i) →
      c.Construct st n = some ((.value (.Int i), none), s1) := by
    intro he i hm
    subst he hm
    simp [opLevelDotsNumConv.Construct, h]
  refine ⟨h1, h2, h3, ?_⟩
  intro res err s2 hc
  cases e with
  | some x =>
    rw [h1 x rfl] at hc
    simp only [Option.some.injEq, Prod.mk.injEq] at hc
    obtain ⟨⟨hr, he⟩, _⟩ := hc
    subst hr he
    simp
  | none =>
    by_cases hm : ∀ i, m ≠ .value (.Int i)
    · rw [h2 rfl hm] at hc
      simp only [Option.some.injEq, Prod.mk.injEq] at hc
      obtain ⟨⟨hr, he⟩, _⟩ := hc
      subst hr he
      simp [hm]
    · have hm2 : ∃ i, m = .value (.Int i) := by
        by_contra hcon
        exact hm (fun i hi => hcon ⟨i, hi⟩)
      obtain ⟨i, hi⟩ := hm2
      rw [h3 rfl i hi] at hc
      simp only [Option.some.injEq, Prod.mk.injEq] at hc
      obtain ⟨⟨hr, he⟩, _⟩ := hc
      subst he
      simp only [ne_eq, not_true_eq_false, false_or, false_iff, false_implies, and_true]
      exact hm

theorem construct_error_cases_witness :
    levelConv.orig.Construct ⟨[("origlevel", .value (.Int 3))]⟩ .nil =
      some ((.value (.Int 3), none), ⟨[("origlevel", .value (.Int 3))]⟩) ∧
    levelConv.Construct ⟨[("origlevel", .value (.Int 3))]⟩ .nil =
      some ((.value (.Int 3), none), ⟨[("origlevel", .value (.Int 3))]⟩) :=
  ⟨by decide,
   (construct_error_cases levelConv ⟨[("origlevel", .value (.Int 3))]⟩ .nil (.value (.Int 3))
      none ⟨[("origlevel", .value (.Int 3))]⟩ (by decide)).2.2.1 rfl 3 rfl⟩

/-- C6: on a value `v`, `Check` first converts `v` with `num2dots`, then runs
the inner check `op` on the converted value and the inner check `orig` on `v`
itself, the second on the state the first one left. It returns true if and only
if both inner checks return true with no error. If the first inner check fails
or errors, its outcome is returned and the second is not run: the result is the
same whatever the second operator is. If the second fails or errors, its error
is returned. -/
theorem check_order_and_short_circuit (op orig : Op) (heap : Nat) (st : State) (v : Value) :
    (∀ st2, (opLevelDotsNumConv.mk op orig).Check heap st (.value v) = some ((true, none), st2) ↔
      ∃ nv s1, num2dots heap v = some nv ∧ op.Check st (.value nv) = some ((true, none), s1) ∧
        orig.Check s1 (.value v) = some ((true, none), st2)) ∧
    (∀ r e st2, (opLevelDotsNumConv.mk op orig).Check heap st (.value v) = some ((r, e), st2) →
      r = true → e = none) ∧
    (∀ nv r1 e1 s1, num2dots heap v = some nv → op.Check st (.value nv) = some ((r1, e1), s1) →
      (e1 ≠ none ∨ r1 = false) →
      ∀ orig2 : Op,
        (opLevelDotsNumConv.mk op orig2).Check heap st (.value v) = some ((false, e1), s1)) ∧
    (∀ nv s1 r2 e2 s2, num2dots heap v = some nv →
      op.Check st (.value nv) = some ((true, none), s1) →
      orig.Check s1 (.value v) = some ((r2, e2), s2) → (e2 ≠ none ∨ r2 = false) →
      (opLevelDotsNumConv.mk op orig).Check heap st (.value v) = some ((false, e2), s2)) := by
  have key : ∀ r e st2,
      (opLevelDotsNumConv.mk op orig).Check heap st (.value v) = some ((r, e), st2) → r = true →
      e = none ∧ ∃ nv s1, num2dots heap v = some nv ∧
        op.Check st (.value nv) = some ((true, none), s1) ∧
        orig.Check s1 (.value v) = some ((true, none), st2) := by
    intro r e st2 h hr
    subst hr
    simp only [opLevelDotsNumConv.Check] at h
    cases hn : num2dots heap v with
    | none => rw [hn] at h; simp at h
    | some nv =>
      rw [hn] at h
      simp only at h
      cases h1 : op.Check st (.value nv) with
      | none => rw [h1] at h; simp at h
      | some out =>
        obtain ⟨⟨r1, e1⟩, s1⟩ := out
        rw [h1] at h
        simp only at h
        by_cases hc : e1 ≠ none ∨ r1 = false
        · rw [if_pos hc] at h
          simp at h
        · rw [if_neg hc] at h
          have hr1 : r1 = true := by
            cases r1 with
            | true => rfl
            | false => exact absurd (Or.inr rfl) hc
          have he1 : e1 = none := by
            cases e1 with
            | none => rfl
            | some e => exact absurd (Or.inl (by simp)) hc
          subst hr1 he1
          cases h2 : orig.Check s1 (.value v) with
          | none => rw [h2] at h; simp at h
          | some out2 =>
            obtain ⟨⟨r2, e2⟩, s2⟩ := out2
            rw [h2] at h
            simp only at h
            by_cases hc2 : e2 ≠ none ∨ r2 = false
            · rw [if_pos hc2] at h
              simp at h
            · rw [if_neg hc2] at h
              have hr2 : r2 = true := by
                cases r2 with
                | true => rfl
                | false => exact absurd (Or.inr rfl) hc2
              have he2 : e2 = none := by
                cases e2 with
                | none => rfl
                | some e => exact absurd (Or.inl (by simp)) hc2
              subst hr2 he2
              simp only [Option.some.injEq, Prod.mk.injEq] at h
              obtain ⟨⟨_, he⟩, hs⟩ := h
              subst hs
              exact ⟨he.symm, nv, s1, rfl, h1, h2⟩
  refine ⟨?_, ?_, ?_, ?_⟩
  · intro st2
    constructor
    · intro h
      exact (key true none st2 h rfl).2
    · rintro ⟨nv, s1, hn, h1, h2⟩
      simp [opLevelDotsNumConv.Check, hn, h1, h2]
  · intro r e st2 h hr
    exact (key r e st2 h hr).1
  · intro nv r1 e1 s1 hn h1 hc orig2
    simp only [opLevelDotsNumConv.Check, hn, h1]
    rw [if_pos hc]
  · intro nv s1 r2 e2 s2 hn h1 h2 hc
    simp only [opLevelDotsNumConv.Check, hn, h1, h2]
    simp only [ne_eq, not_true_eq_false, Bool.true_eq_false, or_self, if_false]
    rw [if_pos hc]

/-- C7 fails on the code: the `Try` rule, entry 76 of `Annotations`, is a
`MapAST` rule whose native pattern binds `else_stmts` while its normalized
template never names it, so its two variable sets differ. It is the only
`MapAST` rule of the table with that defect. -/
theorem try_rule_drops_else_stmts :
    Annotations[76]? = some tryMapping ∧
    tryMapping.isMapAST = true ∧
    "else_stmts" ∈ tryMapping.nativeVars ∧
    "else_stmts" ∉ tryMapping.normVars ∧
    tryMapping.varsConsistent = false ∧
    (Annotations.filter (fun m => m.isMapAST && !m.varsConsistent)).map Mapping.typ =
      [some "Try"] := by
  refine ⟨rfl, rfl, ?_, ?_, ?_, ?_⟩
  · decide
  · decide
  · decide
  · decide!

theorem Var_check_unbound (name : String) (st : State) (n : Node)
    (h : st.GetVar name = none) :
    (Var name).Check st n = some ((true, none), ⟨st.vars ++ [(name, n)]⟩) := by
  simp [Var, State.SetVar, h]

theorem checkFields_cons_var (k name : String) (rest : List (String × Op)) (st st1 : State)
    (o : List (String × Node)) (hun : st.GetVar name = none)
    (h : checkFields ((k, Var name) :: rest) st o = some ((true, none), st1)) :
    ∃ child, o.lookup k = some child ∧
      checkFields rest ⟨st.vars ++ [(name, child)]⟩ o = some ((true, none), st1) := by
  simp only [checkFields] at h
  cases hl : o.lookup k with
  | none => rw [hl] at h; simp at h
  | some child =>
    rw [hl] at h
    simp only [Var_check_unbound name st child hun] at h
    simp only [ne_eq, not_true_eq_false, Bool.true_eq_false, or_self, if_false] at h
    exact ⟨child, rfl, h⟩

theorem checkFields_cons_is (k : String) (lit : Node) (rest : List (String × Op))
    (st st1 : State) (o : List (String × Node))
    (h : checkFields ((k, Is lit) :: rest) st o = some ((true, none), st1)) :
    ∃ child, o.lookup k = some child ∧ Node.Equal lit child = true ∧
      checkFields rest st o = some ((true, none), st1) := by
  simp only [checkFields] at h
  cases hl : o.lookup k with
  | none => rw [hl] at h; simp at h
  | some child =>
    rw [hl] at h
    simp only [Is] at h
    cases he : Node.Equal lit child with
    | false => rw [he] at h; simp at h
    | true =>
      rw [he] at h
      simp only [ne_eq, not_true_eq_false, Bool.true_eq_false, or_self, if_false] at h
      exact ⟨child, rfl, he, h⟩

theorem lookup_filter_none (o : List (String × Node)) (p : String × Node → Bool) (k : String)
    (h : o.lookup k = none) : ∀ kv ∈ o.filter p, kv.1 ≠ k := by
  intro kv hkv hk
  have hmem : kv ∈ o := (List.mem_filter.mp hkv).1
  have := (List.lookup_eq_none_iff.mp h) kv hmem
  simp [hk] at this

theorem functionAnnotate_match_state (heap : Nat) (lib : Library) (typ : String) (roles : List Role)
    (o : List (String × Node)) (S : List Node) (st1 : State)
    (hbody : o.lookup "body" = some (.Array S))
    (hmatch : ((functionAnnotate typ roles).ops heap lib).1.Check State.empty (.Object o) =
      some ((true, none), st1)) :
    ∃ d nm, st1 = ⟨[("_", .Object (o.filter (fun kv =>
          !(["@type", "decorator_list", "body", "name"]).contains kv.1))),
        ("decors", d), ("body_stmts", .Array S), ("name", nm)]⟩ := by
  simp only [Mapping.ops, functionAnnotate, ASTObjectLeft, Part, patFieldOps, patToOp,
    State.empty, State.SetVar, State.GetVar, List.lookup, KeyType, List.map] at hmatch
  obtain ⟨t, _, _, h1⟩ := checkFields_cons_is _ _ _ _ _ _ hmatch
  obtain ⟨d, _, h2⟩ := checkFields_cons_var _ _ _ _ _ _ (by rfl) h1
  obtain ⟨b, hb, h3⟩ := checkFields_cons_var _ _ _ _ _ _ (by rfl) h2
  obtain ⟨nm, _, h4⟩ := checkFields_cons_var _ _ _ _ _ _ (by rfl) h3
  rw [hbody] at hb
  simp only [Option.some.injEq] at hb
  subst hb
  simp only [checkFields, Option.some.injEq, Prod.mk.injEq, true_and] at h4
  exact ⟨d, nm, h4.symm⟩

/-- The node the normalized side of `functionAnnotate` constructs from the
bindings its native side leaves. -/
theorem functionAnnotate_construct (heap : Nat) (lib : Library) (typ : String) (roles : List Role)
    (rest : List (String × Node)) (d nm : Node) (S : List Node) :
    ((functionAnnotate typ roles).ops heap lib).2.Construct
      ⟨[("_", .Object rest), ("decors", d), ("body_stmts", .Array S), ("name", nm)]⟩ .nil =
    if rest.any (fun kv =>
        (["@type", "@role", "decorator_list", "body", "@token"]).contains kv.1) = true then
      some ((.nil, some (.other "field already set")),
        ⟨[("_", .Object rest), ("decors", d), ("body_stmts", .Array S), ("name", nm)]⟩)
    else
      some ((.Object (
          ("@type", .value (.String typ)) ::
          ("@role", rolesNode roles) ::
          ("decorator_list", .Object [
            ("@type", .value (.String "FunctionDef.decorators")),
            ("@role", rolesNode ["Function", "Declaration", "Incomplete"]),
            ("decorators", d)]) ::
          ("body", .Object [
            ("@type", .value (.String "FunctionDef.body")),
            ("@role", rolesNode ["Function", "Declaration", "Body"]),
            ("body_stmts", .Array S)]) ::
          ("@token", nm) :: rest), none),
        ⟨[("_", .Object rest), ("decors", d), ("body_stmts", .Array S), ("name", nm)]⟩) := by
  simp [Mapping.ops, functionAnnotate, ASTObjectRight, Part, patFieldOps, patToOp,
    funcBodyRoles, funcDecoRoles, constructFields, Is, Var, objOp, State.GetVar,
    List.lookup_cons, KeyType, KeyRoles, KeyToken]

/-- C8: grouping node of a function body. For every native object matched by
the rule `functionAnnotate(typ, roles...)` whose `body` field is the sequence
`S`: whenever the normalized node is constructed, its `body` field is the object
with type tag `FunctionDef.body`, role set `[Function, Declaration, Body]`
(the array of these three role names) and one more field, `body_stmts`, that
holds `S` itself; and it is constructed
whenever the native object has no field under the reserved role and token
names. -/
theorem functionAnnotate_body_grouping (heap : Nat) (lib : Library) (typ : String) (roles : List Role)
    (o : List (String × Node)) (S : List Node) (st1 : State)
    (hbody : o.lookup "body" = some (.Array S))
    (hmatch : ((functionAnnotate typ roles).ops heap lib).1.Check State.empty (.Object o) =
      some ((true, none), st1)) :
    (∀ m st2, ((functionAnnotate typ roles).ops heap lib).2.Construct st1 .nil =
        some ((m, none), st2) →
      ∃ out, m = .Object out ∧
        out.lookup "body" = some (.Object [
          (KeyType, .value (.String "FunctionDef.body")),
          (KeyRoles, .Array [.value (.String "Function"), .value (.String "Declaration"),
            .value (.String "Body")]),
          ("body_stmts", .Array S)])) ∧
    (o.lookup KeyRoles = none → o.lookup KeyToken = none →
      ∃ out st2, ((functionAnnotate typ roles).ops heap lib).2.Construct st1 .nil =
        some ((.Object out, none), st2)) := by
  obtain ⟨d, nm, hst⟩ := functionAnnotate_match_state heap lib typ roles o S st1 hbody hmatch
  subst hst
  constructor
  · intro m st2 hc
    rw [functionAnnotate_construct] at hc
    split at hc
    · simp at hc
    · simp only [Option.some.injEq, Prod.mk.injEq, and_true] at hc
      refine ⟨_, hc.1.symm, ?_⟩
      simp [List.lookup_cons, KeyType, KeyRoles, rolesNode]
  · intro hr ht
    have hno : ∀ kv ∈ o.filter (fun kv =>
        !(["@type", "decorator_list", "body", "name"]).contains kv.1),
        (["@type", "@role", "decorator_list", "body", "@token"]).contains kv.1 = false := by
      intro kv hkv
      have h1 := lookup_filter_none o _ KeyRoles hr kv hkv
      have h2 := lookup_filter_none o _ KeyToken ht kv hkv
      have h3 := (List.mem_filter.mp hkv).2
      simp only [KeyRoles, KeyToken] at h1 h2
      simp at h3
      simp [h1, h2, h3]
    rw [functionAnnotate_construct]
    have hany : (o.filter (fun kv =>
        !(["@type", "decorator_list", "body", "name"]).contains kv.1)).any (fun kv =>
        (["@type", "@role", "decorator_list", "body", "@token"]).contains kv.1) = false := by
      rw [List.any_eq_false]
      intro kv hkv
      rw [hno kv hkv]
      simp
    rw [hany]
    simp only [Bool.false_eq_true, if_false]
    exact ⟨_, _, rfl⟩
theorem functionAnnotate_body_grouping_witness :
    ∃ out st2,
      ((functionAnnotate "FunctionDef" ["Function", "Declaration", "Name", "Identifier"]).ops
          maxAlloc noLibrary).2.Construct
        ⟨[("_", .Object [("lineno", .value (.Int 1))]),
          ("decors", .Array []),
          ("body_stmts", .Array [
            .Object [("@type", .value (.String "Pass"))],
            .Object [("@type", .value (.String "Break"))],
            .Object [("@type", .value (.String "Continue"))]]),
          ("name", .value (.String "f"))]⟩ .nil = some ((.Object out, none), st2) ∧
      out.lookup "body" = some (.Object [
        (KeyType, .value (.String "FunctionDef.body")),
        (KeyRoles, .Array [.value (.String "Function"), .value (.String "Declaration"),
            .value (.String "Body")]),
        ("body_stmts", .Array [
          .Object [("@type", .value (.String "Pass"))],
          .Object [("@type", .value (.String "Break"))],
          .Object [("@type", .value (.String "Continue"))]])]) := by
  have h := functionAnnotate_body_grouping maxAlloc noLibrary "FunctionDef"
    ["Function", "Declaration", "Name", "Identifier"]
    [("@type", .value (.String "FunctionDef")),
     ("name", .value (.String "f")),
     ("decorator_list", .Array []),
     ("body", .Array [
        .Object [("@type", .value (.String "Pass"))],
        .Object [("@type", .value (.String "Break"))],
        .Object [("@type", .value (.String "Continue"))]]),
     ("lineno", .value (.Int 1))]
    [.Object [("@type", .value (.String "Pass"))],
     .Object [("@type", .value (.String "Break"))],
     .Object [("@type", .value (.String "Continue"))]]
    ⟨[("_", .Object [("lineno", .value (.Int 1))]),
      ("decors", .Array []),
      ("body_stmts", .Array [
        .Object [("@type", .value (.String "Pass"))],
        .Object [("@type", .value (.String "Break"))],
        .Object [("@type", .value (.String "Continue"))]]),
      ("name", .value (.String "f"))]⟩
    (by decide) (by decide)
  obtain ⟨out, st2, hc⟩ := h.2 (by decide) (by decide)
  obtain ⟨out2, ho, hb⟩ := h.1 _ _ hc
  have : out = out2 := by
    injection ho
  subst this
  exact ⟨out, st2, hc, hb⟩

theorem tableOk_Annotations : tableOk (ruleKeys Annotations) = true := by
  decide!

/-- C9, as stated, fails: the generic `Import` rule, which constrains no
field, is entry 105 of the table and the more specific `Import` rule, which
needs the field `names`, is entry 106. The generic rule is registered first, so
the table does not put the specific rule first. -/
theorem import_generic_rule_comes_first :
    (ruleKeys Annotations)[105]? = some (some "Import", [], []) ∧
    (ruleKeys Annotations)[106]? = some (some "Import", ["names"], ["names"]) ∧
    strictSubset [] ["names"] = true ∧
    ¬ specificFirst (ruleKeys Annotations) := by
  have h105 : (ruleKeys Annotations)[105]? = some (some "Import", [], []) := by decide!
  have h106 : (ruleKeys Annotations)[106]? = some (some "Import", ["names"], ["names"]) := by
    decide!
  refine ⟨h105, h106, by decide, ?_⟩
  intro h
  have hlt : 106 < 105 := h 105 106 _ _ h105 h106 rfl rfl (by decide)
  omega

/-- C9, amended: for every two rules of `Annotations` keyed by the same native
type tag, where the fields one constrains are a strict subset of the fields the
other constrains and the generic one names at least one field of the native
node, the more specific rule is registered earlier in the list than the generic
one. -/
theorem rule_precedence_as_registered (i j : Nat)
    (a b : Option String × List String × List String)
    (hi : (ruleKeys Annotations)[i]? = some a) (hj : (ruleKeys Annotations)[j]? = some b)
    (htag : a.1 = b.1) (hsome : a.1.isSome = true)
    (hsub : strictSubset a.2.1 b.2.1 = true) (hnamed : a.2.2 ≠ []) :
    j < i := by
  have hil : i < (ruleKeys Annotations).length := by
    rcases List.getElem?_eq_some.mp hi with ⟨h, _⟩
    exact h
  have hjl : j < (ruleKeys Annotations).length := by
    rcases List.getElem?_eq_some.mp hj with ⟨h, _⟩
    exact h
  have hall := tableOk_Annotations
  simp only [tableOk, List.all_eq_true, List.mem_range] at hall
  have hp := hall i hil j hjl
  rw [hi, hj] at hp
  have hne : a.2.2.isEmpty = false := by
    cases h2 : a.2.2 with
    | nil => exact absurd h2 hnamed
    | cons x xs => rfl
  simp only [pairOk, htag, beq_self_eq_true, Bool.true_and, hsub, hne, Bool.not_false,
    Bool.and_true] at hp
  rw [htag] at hsome
  simpa [hsome] using hp

theorem rule_precedence_as_registered_witness :
    95 < 96 ∧ 115 < 118 :=
  ⟨rule_precedence_as_registered 96 95
     (some "arguments", ["args", "defaults"], ["args", "defaults", "kwarg", "vararg"])
     (some "arguments", ["args", "defaults", "kw_defaults", "kwonlyargs"],
       ["args", "defaults", "kw_defaults", "kwarg", "kwonlyargs", "vararg"])
     (by decide!) (by decide!) rfl rfl (by decide) (by decide),
   rule_precedence_as_registered 118 115
     (some "For", [], ["iter", "target"])
     (some "For", ["body", "orelse"], ["body", "orelse"])
     (by decide!) (by decide!) rfl rfl (by decide) (by decide)⟩

/-- C10: `Native` is exactly three stages in this order: `ResponseMetadata`
with `TopLevelIsRootNode` false, then `Mappings` over the whole of
`Annotations`, then `RolesDedup`, so that deduplication comes after the mapping
stage. `Code` holds the position stage alone, and `Transforms` wires `Native`
to `Annotations` and `Code` to `Code`. -/
theorem native_stage_order (Preprocess : List Transformer)
    (PreprocessCode : List CodeTransformer) (Normalize : List Transformer) :
    Native = [.ResponseMetadata false, .Mappings Annotations, .RolesDedup] ∧
    Native.length = 3 ∧
    (∀ (i j : Nat) (ms : List Mapping), Native[i]? = some (Transformer.Mappings ms) →
      Native[j]? = some Transformer.RolesDedup → ms = Annotations ∧ i < j) ∧
    Code = [.FillOffsetFromLineCol] ∧
    (Transforms Preprocess PreprocessCode Normalize).Annotations = Native ∧
    (Transforms Preprocess PreprocessCode Normalize).Code = Code := by
  have hN : Native = [.ResponseMetadata false, .Mappings Annotations, .RolesDedup] := rfl
  refine ⟨hN, rfl, ?_, rfl, rfl, rfl⟩
  intro i j ms hi hj
  rw [hN] at hi hj
  have hi1 : i = 1 ∧ ms = Annotations := by
    rcases i with _ | _ | _ | k
    · simp at hi
    · simp only [zero_add, List.getElem?_cons_succ, List.getElem?_cons_zero,
        Option.some.injEq, Transformer.Mappings.injEq] at hi
      exact ⟨rfl, hi.symm⟩
    · simp at hi
    · simp at hi
  have hj2 : j = 2 := by
    rcases j with _ | _ | _ | k
    · simp at hj
    · simp at hj
    · rfl
    · simp at hj
  exact ⟨hi1.2, by omega⟩

/-- C11: a pattern mismatch is not an error. For every node that is not a
primitive value (an object, an array or the nil node) and every state, `Check`
returns false with no error and leaves the bindings as they were; neither inner
check is run, the outcome being the same whatever the two inner operators
are. -/
theorem check_non_value_mismatch (op orig : Op) (heap : Nat) (st : State) (n : Node)
    (hn : ∀ v, n ≠ .value v) :
    (opLevelDotsNumConv.mk op orig).Check heap st n = some ((false, none), st) ∧
    ∀ op2 orig2 : Op,
      (opLevelDotsNumConv.mk op2 orig2).Check heap st n =
        (opLevelDotsNumConv.mk op orig).Check heap st n := by
  cases n with
  | value v => exact absurd rfl (hn v)
  | nil => exact ⟨rfl, fun _ _ => rfl⟩
  | Array xs => exact ⟨rfl, fun _ _ => rfl⟩
  | Object fs => exact ⟨rfl, fun _ _ => rfl⟩

theorem check_non_value_mismatch_witness :
    levelConv.Check maxAlloc ⟨[("level", .value (.String ".."))]⟩
        (.Object [("@type", .value (.String "Num"))]) =
      some ((false, none), ⟨[("level", .value (.String ".."))]⟩) ∧
    levelConv.Check maxAlloc State.empty (.Array [.value (.Int 1)]) = some ((false, none), State.empty) ∧
    levelConv.Check maxAlloc State.empty .nil = some ((false, none), State.empty) :=
  ⟨(check_non_value_mismatch (Var "level") (Var "origlevel") maxAlloc
      ⟨[("level", .value (.String ".."))]⟩ (.Object [("@type", .value (.String "Num"))])
      (fun _ h => Node.noConfusion h)).1,
   (check_non_value_mismatch (Var "level") (Var "origlevel") maxAlloc State.empty
      (.Array [.value (.Int 1)]) (fun _ h => Node.noConfusion h)).1,
   (check_non_value_mismatch (Var "level") (Var "origlevel") maxAlloc State.empty .nil
      (fun _ h => Node.noConfusion h)).1⟩

/-- C12, as stated, fails: the count `2^48 + 1` is not negative, yet it is
above the longest byte slice the runtime allocates, so `strings.Repeat` panics
in the allocator and `num2dots` does not return, whatever memory is free. -/
theorem num2dots_huge_count_does_not_return :
    ¬ ((2 : Int) ^ 48 + 1 < 0) ∧ num2dots maxAlloc (.Int (2 ^ 48 + 1)) = none ∧
    ∀ heap : Nat, num2dots heap (.Int (2 ^ 48 + 1)) = none := by
  have hm : (maxAlloc : Int) = 2 ^ 48 := by
    unfold maxAlloc
    norm_num
  have h : ∀ heap : Nat, num2dots heap (.Int (2 ^ 48 + 1)) = none := fun heap =>
    num2dots_of_too_long heap (2 ^ 48 + 1) (by norm_num) (by norm_num)
      (Or.inr (by rw [hm]; norm_num))
  exact ⟨by norm_num, h maxAlloc, h⟩

/-- C12, amended: `num2dots` returns normally exactly on the values that are
neither a negative `Int` nor an `Int` above what the runtime can allocate (the
`heap` bytes the allocator can serve, at most `maxAlloc`). Every value that is
not an `Int` is returned unchanged; every `Int` `n ≥ 0` within that bound yields
a `String`; for every `Int` `n < 0` the count handed to `strings.Repeat` is
negative, which is outside its precondition: the call panics and `num2dots`
returns nothing; for every `Int` above the bound the allocation fails and
`num2dots` returns nothing. The `Int` values are those of the `int64` range. -/
theorem num2dots_returns_iff (heap : Nat) (v : Value)
    (hwf : ∀ i, v = .Int i → -(2 ^ 63) ≤ i ∧ i < 2 ^ 63) :
    ((num2dots heap v).isSome = true ↔
      ¬ ∃ i, v = .Int i ∧ (i < 0 ∨ (heap : Int) < i ∨ (maxAlloc : Int) < i)) ∧
    ((∀ i, v ≠ .Int i) → num2dots heap v = some v) ∧
    (∀ i, v = .Int i → 0 ≤ i → i ≤ heap → i ≤ maxAlloc →
      ∃ s, num2dots heap v = some (.String s)) ∧
    (∀ i, v = .Int i → i < 0 →
      goInt (goInt i) < 0 ∧ stringsRepeat heap "." (goInt (goInt i)) = none ∧
        num2dots heap v = none) ∧
    (∀ i, v = .Int i → ((heap : Int) < i ∨ (maxAlloc : Int) < i) →
      num2dots heap v = none) := by
  have hneg : ∀ i, -(2 ^ 63) ≤ i → i < 2 ^ 63 → i < 0 →
      goInt (goInt i) < 0 ∧ stringsRepeat heap "." (goInt (goInt i)) = none ∧
        num2dots heap (.Int i) = none := by
    intro i h0 h1 hi
    have hr : goInt i = i := goInt_of_range i h0 h1
    have hs : stringsRepeat heap "." i = none := by
      unfold stringsRepeat
      rw [if_pos (Or.inl hi)]
    refine ⟨by rw [hr, hr]; exact hi, by rw [hr, hr]; exact hs, ?_⟩
    simp only [num2dots, hr, hs, Option.map]
  cases v with
  | Int i =>
    obtain ⟨h0, h1⟩ := hwf i rfl
    refine ⟨?_, fun h => absurd rfl (h i), ?_, ?_, ?_⟩
    · by_cases hi : i < 0
      · rw [(hneg i h0 h1 hi).2.2]
        simp only [Option.isSome_none, Bool.false_eq_true, false_iff, not_not]
        exact ⟨i, rfl, Or.inl hi⟩
      · by_cases hbig : (heap : Int) < i ∨ (maxAlloc : Int) < i
        · rw [num2dots_of_too_long heap i h0 h1 hbig]
          simp only [Option.isSome_none, Bool.false_eq_true, false_iff, not_not]
          exact ⟨i, rfl, Or.inr hbig⟩
        · rw [num2dots_of_nonneg heap i (by omega) (by omega) (by omega)]
          simp only [Option.isSome_some, true_iff]
          rintro ⟨j, hj, hlt⟩
          injection hj with hj
          subst hj
          rcases hlt with hlt | hlt
          · exact hi hlt
          · exact hbig hlt
    · intro j hj hpos hh hm
      injection hj with hj
      subst hj
      exact ⟨_, num2dots_of_nonneg heap i hpos hh hm⟩
    · intro j hj hlt
      injection hj with hj
      subst hj
      exact hneg i h0 h1 hlt
    · intro j hj hbig
      injection hj with hj
      subst hj
      exact num2dots_of_too_long heap i h0 h1 hbig
  | String s =>
    refine ⟨?_, fun _ => rfl, fun i h => Value.noConfusion h, fun i h => Value.noConfusion h,
      fun i h => Value.noConfusion h⟩
    simp [num2dots]
  | Float b =>
    refine ⟨?_, fun _ => rfl, fun i h => Value.noConfusion h, fun i h => Value.noConfusion h,
      fun i h => Value.noConfusion h⟩
    simp [num2dots]
  | Bool b =>
    refine ⟨?_, fun _ => rfl, fun i h => Value.noConfusion h, fun i h => Value.noConfusion h,
      fun i h => Value.noConfusion h⟩
    simp [num2dots]

theorem num2dots_returns_iff_witness :
    (goInt (goInt (-1)) < 0 ∧ stringsRepeat 8 "." (goInt (goInt (-1))) = none ∧
      num2dots 8 (.Int (-1)) = none) ∧
    (∃ s, num2dots 8 (.Int 2) = some (.String s)) ∧
    num2dots 8 (.String "x") = some (.String "x") ∧
    num2dots 8 (.Int 9) = none :=
  ⟨(num2dots_returns_iff 8 (.Int (-1))
      (fun i h => by injection h with h; subst h; decide)).2.2.2.1 (-1) rfl (by decide),
   (num2dots_returns_iff 8 (.Int 2)
      (fun i h => by injection h with h; subst h; decide)).2.2.1 2 rfl (by decide)
      (by decide) (by decide),
   (num2dots_returns_iff 8 (.String "x") (fun _ h => Value.noConfusion h)).2.1
      (fun _ h => Value.noConfusion h),
   (num2dots_returns_iff 8 (.Int 9)
      (fun i h => by injection h with h; subst h; decide)).2.2.2.2 9 rfl
      (Or.inl (by decide))⟩

/-- C13: the denormalizing direction never reads the dots string. With
`orig = Var("origlevel")`, for every template node and every two binding states
that agree on `origlevel`, `Construct` returns the same node and error,
whatever `level` is bound to or whether it is bound at all, and whatever the
inner operator `op` is: `op` is not invoked. The `Int` returned is the one bound
to `origlevel`, also when it is not the number of dots of the level token. -/
theorem construct_ignores_level (op op2 : Op) (st st2 : State) (n : Node)
    (hagree : st.GetVar "origlevel" = st2.GetVar "origlevel") :
    ((opLevelDotsNumConv.mk op (Var "origlevel")).Construct st n).map Prod.fst =
      ((opLevelDotsNumConv.mk op2 (Var "origlevel")).Construct st2 n).map Prod.fst ∧
    (∀ i, st.GetVar "origlevel" = some (.value (.Int i)) →
      (opLevelDotsNumConv.mk op (Var "origlevel")).Construct st .nil =
        some ((.value (.Int i), none), st)) := by
  constructor
  · cases n with
    | nil =>
      simp only [opLevelDotsNumConv.Construct, Var, hagree]
      cases st2.GetVar "origlevel" with
      | none => rfl
      | some val =>
        cases val with
        | value w => cases w <;> rfl
        | nil => rfl
        | Array xs => rfl
        | Object fs => rfl
    | value v => rfl
    | Array xs => rfl
    | Object fs => rfl
  · intro i hi
    simp [opLevelDotsNumConv.Construct, Var, hi]

theorem construct_ignores_level_witness :
    levelConv.Construct
        ⟨[("level", .value (.String ".....")), ("origlevel", .value (.Int 2))]⟩ .nil =
      some ((.value (.Int 2), none),
        ⟨[("level", .value (.String ".....")), ("origlevel", .value (.Int 2))]⟩) ∧
    (levelConv.Construct
        ⟨[("level", .value (.String ".....")), ("origlevel", .value (.Int 2))]⟩ .nil).map
        Prod.fst =
      (levelConv.Construct ⟨[("origlevel", .value (.Int 2))]⟩ .nil).map Prod.fst :=
  ⟨(construct_ignores_level (Var "level") (Var "level")
      ⟨[("level", .value (.String ".....")), ("origlevel", .value (.Int 2))]⟩
      ⟨[("origlevel", .value (.Int 2))]⟩ .nil (by decide)).2 2 (by decide),
   (construct_ignores_level (Var "level") (Var "level")
      ⟨[("level", .value (.String ".....")), ("origlevel", .value (.Int 2))]⟩
      ⟨[("origlevel", .value (.Int 2))]⟩ .nil (by decide)).1⟩

end normalizer
